import Mathlib

/-!
# upnpdig: the `describe` command

A verification development for `cmd/describe.go`: the service location
resolver `describeGetServiceLocation` and the device renderer
`describeDevicePrinter`.

Go strings are byte sequences.  They are modelled as Lean strings whose
characters stand for the bytes, so ASCII text is modelled by itself.
-/

namespace Upnpdig

/-! ## Data model (`schemas.Service`, `schemas.DeviceType`) -/

/-- Modelled from the spec: the type `schemas.Service` of the package
`go-upnp/schemas`, whose declaration is not among the sources, with the five
string fields that `describe.go` reads (the `ServiceRef` of the data model). -/
structure Service where
  ServiceType : String
  ServiceId : String
  SCPDURL : String
  ControlURL : String
  EventSubURL : String
deriving DecidableEq, Repr

/-- Modelled from the spec: the eleven string attributes of a
`schemas.DeviceType`, whose declaration is not among the sources, as
`describe.go` reads them (the identity and display fields of a `DeviceNode`,
opaque strings). -/
structure DeviceAttrs where
  DeviceType : String
  FriendlyName : String
  Manufacturer : String
  ManufacturerURL : String
  ModelName : String
  ModelDescription : String
  ModelURL : String
  SerialNumber : String
  PresentationURL : String
  UPC : String
  UDN : String
deriving DecidableEq, Repr

/-- Modelled from the spec: the type `schemas.DeviceType` of the package
`go-upnp/schemas`, whose declaration is not among the sources (the recursive
`DeviceNode` of the data model): its attributes, `ServiceList.Services` and
`DeviceList.Devices`, the embedded devices, both in document order. -/
inductive DeviceType where
  | mk (attrs : DeviceAttrs) (Services : List Service) (Devices : List DeviceType)

/-- The attributes of a device. -/
def DeviceType.attrs : DeviceType → DeviceAttrs
  | .mk a _ _ => a

/-- The field `ServiceList.Services`. -/
def DeviceType.Services : DeviceType → List Service
  | .mk _ s _ => s

/-- The field `DeviceList.Devices`. -/
def DeviceType.Devices : DeviceType → List DeviceType
  | .mk _ _ d => d

/-! ## Go's `net/url`

The resolver calls `url.Parse` and `(*URL).ResolveReference`, and its caller
`(*URL).String`.  They belong to Go's standard library, not to this
repository; the definitions below follow `net/url/url.go` of Go 1.20 function
by function, on lists of bytes.  An error of `url.Parse` is modelled by the
error that `url.Parse` wraps into its `*url.Error`.
-/

namespace url

/-- The errors of `url.Parse`, by the place that raises them. -/
inductive ParseError where
  /-- The error "net/url: invalid control character in URL". -/
  | invalidControlCharacter
  /-- The error "missing protocol scheme". -/
  | missingProtocolScheme
  /-- The error "first path segment in URL cannot contain colon". -/
  | firstPathSegmentColon
  /-- The type `EscapeError`: "invalid URL escape", with the escape. -/
  | escapeError (s : String)
  /-- The type `InvalidHostError`: "invalid character in host name", with the
  character. -/
  | invalidHostError (s : String)
  /-- The error "missing ']' in host". -/
  | missingBracket
  /-- The error "invalid port ... after host", with the port. -/
  | invalidPort (s : String)
  /-- The error "net/url: invalid userinfo". -/
  | invalidUserinfo
deriving DecidableEq, Repr

/-- The type `encoding`. -/
inductive encoding where
  | encodePath
  | encodePathSegment
  | encodeHost
  | encodeZone
  | encodeUserPassword
  | encodeQueryComponent
  | encodeFragment
deriving DecidableEq, Repr

/-- The type `Userinfo`. -/
structure Userinfo where
  username : String
  password : String
  passwordSet : Bool
deriving DecidableEq, Repr

/-- The type `URL`. -/
structure URL where
  Scheme : String
  Opaque : String
  User : Option Userinfo
  Host : String
  Path : String
  RawPath : String
  OmitHost : Bool
  ForceQuery : Bool
  RawQuery : String
  Fragment : String
  RawFragment : String
deriving DecidableEq, Repr

/-- The value `new(URL)`: every field zero. -/
def URL.zero : URL :=
  { Scheme := "", Opaque := "", User := none, Host := "", Path := "", RawPath := "",
    OmitHost := false, ForceQuery := false, RawQuery := "", Fragment := "",
    RawFragment := "" }

/-! ### String helpers (`strings.Cut`, `strings.Index`, `strings.LastIndex`) -/

/-- `strings.Cut(s, sep)` for a one-byte separator: before, after, found. -/
def cut (sep : Char) : List Char → List Char × List Char × Bool
  | [] => ([], [], false)
  | c :: rest =>
    if c = sep then ([], rest, true)
    else
      let r := cut sep rest
      (c :: r.1, r.2.1, r.2.2)

/-- `strings.Index(s, pat)`, `none` for -1. -/
def index (pat : List Char) : List Char → Option Nat
  | [] => if pat = [] then some 0 else none
  | c :: rest =>
    if pat.isPrefixOf (c :: rest) then some 0
    else (index pat rest).map (· + 1)

/-- `strings.LastIndex(s, sep)` for a one-byte separator, `none` for -1. -/
def lastIndex (sep : Char) : List Char → Option Nat
  | [] => none
  | c :: rest =>
    match lastIndex sep rest with
    | some i => some (i + 1)
    | none => if c = sep then some 0 else none

/-- `strings.ToLower` on one ASCII byte. -/
def toLowerByte (c : Char) : Char :=
  if 'A' ≤ c ∧ c ≤ 'Z' then Char.ofNat (c.toNat + 32) else c

/-- `stringContainsCTLByte`. -/
def stringContainsCTLByte (s : List Char) : Bool :=
  s.any fun b => decide (b < ' ' ∨ b = Char.ofNat 0x7f)

/-! ### Escaping -/

/-- `ishex`. -/
def ishex (c : Char) : Bool :=
  decide (('0' ≤ c ∧ c ≤ '9') ∨ ('a' ≤ c ∧ c ≤ 'f') ∨ ('A' ≤ c ∧ c ≤ 'F'))

/-- `unhex`. -/
def unhex (c : Char) : Nat :=
  if '0' ≤ c ∧ c ≤ '9' then c.toNat - '0'.toNat
  else if 'a' ≤ c ∧ c ≤ 'f' then c.toNat - 'a'.toNat + 10
  else if 'A' ≤ c ∧ c ≤ 'F' then c.toNat - 'A'.toNat + 10
  else 0

/-- The digit `upperhex[n]`. -/
def upperhex (n : Nat) : Char :=
  "0123456789ABCDEF".data.getD n '0'

/-- `shouldEscape`. -/
def shouldEscape (c : Char) (mode : encoding) : Bool :=
  if ('a' ≤ c ∧ c ≤ 'z') ∨ ('A' ≤ c ∧ c ≤ 'Z') ∨ ('0' ≤ c ∧ c ≤ '9') then false
  else if (mode = .encodeHost ∨ mode = .encodeZone) ∧
      c ∈ ['!', '$', '&', '\'', '(', ')', '*', '+', ',', ';', '=', ':', '[', ']', '<', '>', '"']
    then false
  else if c ∈ ['-', '_', '.', '~'] then false
  else if c ∈ ['$', '&', '+', ',', '/', ':', ';', '=', '?', '@'] then
    match mode with
    | .encodePath => decide (c = '?')
    | .encodePathSegment => decide (c = '/' ∨ c = ';' ∨ c = ',' ∨ c = '?')
    | .encodeUserPassword => decide (c = '@' ∨ c = '/' ∨ c = '?' ∨ c = ':')
    | .encodeQueryComponent => true
    | .encodeFragment => false
    | _ => true
  else if mode = .encodeFragment ∧ c ∈ ['!', '(', ')', '*'] then false
  else true

/-- The first loop of `unescape`: `some err` at the first malformed place,
`none` when the loop runs to its end. -/
def unescapeCheck (mode : encoding) : List Char → Option ParseError
  | [] => none
  | '%' :: a :: b :: rest =>
    if !ishex a || !ishex b then some (.escapeError (String.mk ['%', a, b]))
    else if mode = .encodeHost ∧ unhex a < 8 ∧ ['%', a, b] ≠ "%25".data then
      some (.escapeError (String.mk ['%', a, b]))
    else if mode = .encodeZone ∧ ['%', a, b] ≠ "%25".data ∧
        Char.ofNat (unhex a * 16 + unhex b) ≠ ' ' ∧
        shouldEscape (Char.ofNat (unhex a * 16 + unhex b)) .encodeHost then
      some (.escapeError (String.mk ['%', a, b]))
    else unescapeCheck mode rest
  | '%' :: rest => some (.escapeError (String.mk ('%' :: rest)))
  | '+' :: rest => unescapeCheck mode rest
  | c :: rest =>
    if (mode = .encodeHost ∨ mode = .encodeZone) ∧ c.toNat < 0x80 ∧
        shouldEscape c .encodeHost then
      some (.invalidHostError (String.mk [c]))
    else unescapeCheck mode rest

/-- The second loop of `unescape`, on a string the first loop accepted. -/
def unescapeDecode (mode : encoding) : List Char → List Char
  | [] => []
  | '%' :: a :: b :: rest => Char.ofNat (unhex a * 16 + unhex b) :: unescapeDecode mode rest
  | '+' :: rest =>
    (if mode = .encodeQueryComponent then ' ' else '+') :: unescapeDecode mode rest
  | c :: rest => c :: unescapeDecode mode rest

/-- `unescape`. -/
def unescape (s : List Char) (mode : encoding) : Except ParseError (List Char) :=
  match unescapeCheck mode s with
  | some err => .error err
  | none => .ok (unescapeDecode mode s)

/-- `escape`. -/
def escape (s : List Char) (mode : encoding) : List Char :=
  s.flatMap fun c =>
    if c = ' ' ∧ mode = .encodeQueryComponent then ['+']
    else if shouldEscape c mode then ['%', upperhex (c.toNat / 16 % 16), upperhex (c.toNat % 16)]
    else [c]

/-- `validEncoded`. -/
def validEncoded (s : List Char) (mode : encoding) : Bool :=
  s.all fun c =>
    if c ∈ ['!', '$', '&', '\'', '(', ')', '*', '+', ',', ';', '=', ':', '@', '[', ']', '%']
    then true
    else !shouldEscape c mode

/-! ### Parsing -/

/-- The loop of `getScheme` at index `i`, with the bytes from `i` on. -/
def getSchemeLoop (rawURL : List Char) : Nat → List Char →
    Except ParseError (List Char × List Char)
  | _, [] => .ok ([], rawURL)
  | i, c :: rest =>
    if ('a' ≤ c ∧ c ≤ 'z') ∨ ('A' ≤ c ∧ c ≤ 'Z') then getSchemeLoop rawURL (i + 1) rest
    else if ('0' ≤ c ∧ c ≤ '9') ∨ c = '+' ∨ c = '-' ∨ c = '.' then
      if i = 0 then .ok ([], rawURL) else getSchemeLoop rawURL (i + 1) rest
    else if c = ':' then
      if i = 0 then .error .missingProtocolScheme else .ok (rawURL.take i, rest)
    else .ok ([], rawURL)

/-- `getScheme`: the scheme and what follows its colon. -/
def getScheme (rawURL : List Char) : Except ParseError (List Char × List Char) :=
  getSchemeLoop rawURL 0 rawURL

/-- `validOptionalPort`. -/
def validOptionalPort : List Char → Bool
  | [] => true
  | c :: rest => c = ':' && rest.all fun b => !decide (b < '0' ∨ b > '9')

/-- `validUserinfo`. -/
def validUserinfo (s : List Char) : Bool :=
  s.all fun r =>
    decide (('A' ≤ r ∧ r ≤ 'Z') ∨ ('a' ≤ r ∧ r ≤ 'z') ∨ ('0' ≤ r ∧ r ≤ '9') ∨
      r ∈ ['-', '.', '_', ':', '~', '!', '$', '&', '\'', '(', ')', '*', '+', ',', ';', '=',
        '%', '@'])

/-- `parseHost`. -/
def parseHost (host : List Char) : Except ParseError (List Char) :=
  if host.head? = some '[' then
    match lastIndex ']' host with
    | none => .error .missingBracket
    | some i =>
      if !validOptionalPort (host.drop (i + 1)) then
        .error (.invalidPort (String.mk (host.drop (i + 1))))
      else
        match index "%25".data (host.take i) with
        | some zone =>
          match unescape (host.take zone) .encodeHost with
          | .error err => .error err
          | .ok host1 =>
            match unescape ((host.take i).drop zone) .encodeZone with
            | .error err => .error err
            | .ok host2 =>
              match unescape (host.drop i) .encodeHost with
              | .error err => .error err
              | .ok host3 => .ok (host1 ++ host2 ++ host3)
        | none => unescape host .encodeHost
  else
    match lastIndex ':' host with
    | some i =>
      if !validOptionalPort (host.drop i) then .error (.invalidPort (String.mk (host.drop i)))
      else unescape host .encodeHost
    | none => unescape host .encodeHost

/-- `parseAuthority`: the user information and the host. -/
def parseAuthority (authority : List Char) :
    Except ParseError (Option Userinfo × List Char) :=
  match lastIndex '@' authority with
  | none =>
    match parseHost authority with
    | .error err => .error err
    | .ok host => .ok (none, host)
  | some i =>
    match parseHost (authority.drop (i + 1)) with
    | .error err => .error err
    | .ok host =>
      let userinfo := authority.take i
      if !validUserinfo userinfo then .error .invalidUserinfo
      else if !userinfo.contains ':' then
        match unescape userinfo .encodeUserPassword with
        | .error err => .error err
        | .ok name => .ok (some ⟨String.mk name, "", false⟩, host)
      else
        match unescape (cut ':' userinfo).1 .encodeUserPassword with
        | .error err => .error err
        | .ok username =>
          match unescape (cut ':' userinfo).2.1 .encodeUserPassword with
          | .error err => .error err
          | .ok password => .ok (some ⟨String.mk username, String.mk password, true⟩, host)

/-- The method `setPath`. -/
def URL.setPath (u : URL) (p : List Char) : Except ParseError URL :=
  match unescape p .encodePath with
  | .error err => .error err
  | .ok path =>
    if p = escape path .encodePath then .ok { u with Path := String.mk path, RawPath := "" }
    else .ok { u with Path := String.mk path, RawPath := String.mk p }

/-- The method `setFragment`. -/
def URL.setFragment (u : URL) (f : List Char) : Except ParseError URL :=
  match unescape f .encodeFragment with
  | .error err => .error err
  | .ok frag =>
    if f = escape frag .encodeFragment then
      .ok { u with Fragment := String.mk frag, RawFragment := "" }
    else .ok { u with Fragment := String.mk frag, RawFragment := String.mk f }

/-- The end of `parse`, from the authority on, for a URL whose scheme and
query are set and the rest of the input. -/
def parseRest (url : URL) (rest : List Char) : Except ParseError URL :=
  if (url.Scheme ≠ "" ∨ !"///".data.isPrefixOf rest) ∧ "//".data.isPrefixOf rest then
    let after := cut '/' (rest.drop 2)
    match parseAuthority after.1 with
    | .error err => .error err
    | .ok (user, host) =>
      URL.setPath { url with User := user, Host := String.mk host }
        (if after.2.2 then '/' :: after.2.1 else [])
  else if url.Scheme ≠ "" ∧ "/".data.isPrefixOf rest then
    URL.setPath { url with OmitHost := true } rest
  else URL.setPath url rest

/-- The function `parse` with `viaRequest` false. -/
def parse (rawURL : List Char) : Except ParseError URL :=
  if stringContainsCTLByte rawURL then .error .invalidControlCharacter
  else if rawURL = ['*'] then .ok { URL.zero with Path := "*" }
  else
    match getScheme rawURL with
    | .error err => .error err
    | .ok (scheme, rest) =>
      let url := { URL.zero with Scheme := String.mk (scheme.map toLowerByte) }
      let url := if rest.getLast? = some '?' ∧ rest.count '?' = 1
        then { url with ForceQuery := true }
        else { url with RawQuery := String.mk (cut '?' rest).2.1 }
      let rest := if rest.getLast? = some '?' ∧ rest.count '?' = 1
        then rest.dropLast else (cut '?' rest).1
      if !"/".data.isPrefixOf rest then
        if url.Scheme ≠ "" then .ok { url with Opaque := String.mk rest }
        else if (cut '/' rest).1.contains ':' then .error .firstPathSegmentColon
        else parseRest url rest
      else parseRest url rest

/-- The function `url.Parse`. -/
def Parse (rawURL : String) : Except ParseError URL :=
  match parse (cut '#' rawURL.data).1 with
  | .error err => .error err
  | .ok url =>
    if (cut '#' rawURL.data).2.1 = [] then .ok url
    else url.setFragment (cut '#' rawURL.data).2.1

/-! ### Reference resolution and printing -/

/-- The method `EscapedPath`. -/
def URL.EscapedPath (u : URL) : List Char :=
  let escaped := if u.Path = "*" then ['*'] else escape u.Path.data .encodePath
  if u.RawPath ≠ "" ∧ validEncoded u.RawPath.data .encodePath then
    match unescape u.RawPath.data .encodePath with
    | .ok p => if p = u.Path.data then u.RawPath.data else escaped
    | .error _ => escaped
  else escaped

/-- The method `EscapedFragment`. -/
def URL.EscapedFragment (u : URL) : List Char :=
  let escaped := escape u.Fragment.data .encodeFragment
  if u.RawFragment ≠ "" ∧ validEncoded u.RawFragment.data .encodeFragment then
    match unescape u.RawFragment.data .encodeFragment with
    | .ok f => if f = u.Fragment.data then u.RawFragment.data else escaped
    | .error _ => escaped
  else escaped

/-- `strings.Split(s, sep)` for a one-byte separator: the elements that the
repeated `strings.Cut` of `resolvePath` yields. -/
def split (sep : Char) : List Char → List (List Char)
  | [] => [[]]
  | c :: rest =>
    if c = sep then [] :: split sep rest
    else
      match split sep rest with
      | [] => [[c]]
      | e :: es => (c :: e) :: es

/-- One turn of the loop of `resolvePath` on the buffer `dst` and the flag
`first`, for the element `elem`. -/
def resolvePathStep (st : List Char × Bool) (elem : List Char) : List Char × Bool :=
  if elem = ['.'] then (st.1, false)
  else if elem = ['.', '.'] then
    match lastIndex '/' (st.1.drop 1) with
    | none => (['/'], true)
    | some i => ('/' :: (st.1.drop 1).take i, st.2)
  else ((if !st.2 then st.1 ++ ['/'] else st.1) ++ elem, false)

/-- `resolvePath`. -/
def resolvePath (base ref : List Char) : List Char :=
  let full :=
    if ref = [] then base
    else if ref.head? ≠ some '/' then
      (match lastIndex '/' base with
        | some i => base.take (i + 1)
        | none => []) ++ ref
    else ref
  if full = [] then []
  else
    let elems := split '/' full
    let dst := (elems.foldl resolvePathStep (['/'], true)).1
    let dst := if elems.getLast? = some ['.'] ∨ elems.getLast? = some ['.', '.']
      then dst ++ ['/'] else dst
    if dst.length > 1 ∧ (dst.drop 1).head? = some '/' then dst.drop 1 else dst

/-- A call `url.setPath(p)` whose error is ignored. -/
def URL.setPathIgnore (u : URL) (p : List Char) : URL :=
  match u.setPath p with
  | .ok v => v
  | .error _ => u

/-- The method `ResolveReference`, with the base `u` as receiver. -/
def URL.ResolveReference (u ref : URL) : URL :=
  let url := if ref.Scheme = "" then { ref with Scheme := u.Scheme } else ref
  if ref.Scheme ≠ "" ∨ ref.Host ≠ "" ∨ ref.User ≠ none then
    url.setPathIgnore (resolvePath ref.EscapedPath [])
  else if ref.Opaque ≠ "" then { url with User := none, Host := "", Path := "" }
  else
    let url :=
      if ref.Path = "" ∧ !ref.ForceQuery ∧ ref.RawQuery = "" then
        if ref.Fragment = "" then
          { url with RawQuery := u.RawQuery, Fragment := u.Fragment,
                     RawFragment := u.RawFragment }
        else { url with RawQuery := u.RawQuery }
      else url
    URL.setPathIgnore { url with Host := u.Host, User := u.User }
      (resolvePath u.EscapedPath ref.EscapedPath)

/-- The method `String` of `Userinfo`. -/
def Userinfo.String (u : Userinfo) : List Char :=
  escape u.username.data .encodeUserPassword ++
    (if u.passwordSet then ':' :: escape u.password.data .encodeUserPassword else [])

/-- The method `String` of `URL`. -/
def URL.String (u : URL) : String :=
  let buf := if u.Scheme ≠ "" then u.Scheme.data ++ [':'] else []
  let buf :=
    if u.Opaque ≠ "" then buf ++ u.Opaque.data
    else
      let buf :=
        if u.Scheme ≠ "" ∨ u.Host ≠ "" ∨ u.User ≠ none then
          if u.OmitHost ∧ u.Host = "" ∧ u.User = none then buf
          else
            let buf := if u.Host ≠ "" ∨ u.Path ≠ "" ∨ u.User ≠ none
              then buf ++ ['/', '/'] else buf
            let buf := match u.User with
              | some ui => buf ++ ui.String ++ ['@']
              | none => buf
            if u.Host ≠ "" then buf ++ escape u.Host.data .encodeHost else buf
        else buf
      let path := u.EscapedPath
      let buf := if path ≠ [] ∧ path.head? ≠ some '/' ∧ u.Host ≠ "" then buf ++ ['/'] else buf
      let buf := if buf = [] ∧ (cut '/' path).1.contains ':' then buf ++ ['.', '/'] else buf
      buf ++ path
  let buf := if u.ForceQuery ∨ u.RawQuery ≠ "" then buf ++ '?' :: u.RawQuery.data else buf
  let buf := if u.Fragment ≠ "" then buf ++ '#' :: u.EscapedFragment else buf
  String.mk buf

end url

/-! ## The resolver -/

/-- The two functions of Go's `net/url` that the resolver calls, over a type
`U` of parsed URLs: `url.Parse`, which fails with an error of type `E`, and
`(*URL).ResolveReference`, with the base as first argument. -/
structure NetURL (U E : Type) where
  Parse : String → Except E U
  ResolveReference : U → U → U

/-- The errors `describeGetServiceLocation` returns: the package variable
`describeErrServiceNotFound`, or an error of `url.Parse`, which is never
equal to that variable. -/
inductive Error (E : Type) where
  | describeErrServiceNotFound
  | parse (err : E)
deriving DecidableEq, Repr

/-- What a call returns and what it passed to `log.Printf`, in order. -/
structure Outcome (U E : Type) where
  result : Except (Error E) U
  log : List (Error E)

/-- The body of the first loop at a service whose id matched
(describe.go, lines 66-77). -/
def resolveService {U E : Type} (lib : NetURL U E) (deviceUrl : String) (svc : Service) :
    Except (Error E) U :=
  match lib.Parse deviceUrl with
  | .error err => .error (.parse err)
  | .ok devUrl =>
    match lib.Parse svc.SCPDURL with
    | .error err => .error (.parse err)
    | .ok svcUrl => .ok (lib.ResolveReference devUrl svcUrl)

/-- The first loop (describe.go, lines 64-79): `some r` when the loop
returns `r`, `none` when it runs to its end. -/
def serviceLoop {U E : Type} (lib : NetURL U E) (deviceUrl : String) (serviceId : String) :
    List Service → Option (Except (Error E) U)
  | [] => none
  | svc :: rest =>
    if svc.ServiceId = serviceId then some (resolveService lib deviceUrl svc)
    else serviceLoop lib deviceUrl serviceId rest

mutual
/-- The function `describeGetServiceLocation` (describe.go, lines 63-91). -/
def describeGetServiceLocation {U E : Type} (lib : NetURL U E) (deviceUrl : String) :
    DeviceType → String → Outcome U E
  | .mk _ services devices, serviceId =>
    match serviceLoop lib deviceUrl serviceId services with
    | some r => ⟨r, []⟩
    | none => deviceLoop lib deviceUrl devices serviceId
/-- The second loop and the final return (describe.go, lines 81-90). -/
def deviceLoop {U E : Type} (lib : NetURL U E) (deviceUrl : String) :
    List DeviceType → String → Outcome U E
  | [], _ => ⟨.error .describeErrServiceNotFound, []⟩
  | embeddedDevice :: rest, serviceId =>
    match describeGetServiceLocation lib deviceUrl embeddedDevice serviceId with
    | ⟨.ok u, l⟩ => ⟨.ok u, l⟩
    | ⟨.error err, l⟩ =>
      let next := deviceLoop lib deviceUrl rest serviceId
      match err with
      | .describeErrServiceNotFound => ⟨next.result, l ++ next.log⟩
      | .parse e => ⟨next.result, l ++ Error.parse e :: next.log⟩
end

/-- Modelled from the spec: the "standard reference-resolution rules" of the
resolver's contract, which `describe.go` takes from Go's package `net/url`.
That package is not among the sources; its functions are the definitions of
the namespace `url` above, which follow its file `url.go`. -/
def netURL : NetURL url.URL url.ParseError :=
  { Parse := url.Parse, ResolveReference := url.URL.ResolveReference }

mutual
/-- The devices of a tree in pre-order: the device, then the trees of its
embedded devices in list order. -/
def DeviceType.preorder : DeviceType → List DeviceType
  | .mk attrs services devices => .mk attrs services devices :: preorderList devices
/-- The devices of a list of trees in pre-order, tree after tree. -/
def preorderList : List DeviceType → List DeviceType
  | [] => []
  | d :: ds => d.preorder ++ preorderList ds
end

/-- The device reached from a device by a path of positions in the successive
`DeviceList.Devices`; the length of the path is its depth below the start. -/
def DeviceType.descend : DeviceType → List Nat → Option DeviceType
  | d, [] => some d
  | d, i :: path =>
    match d.Devices[i]? with
    | some c => c.descend path
    | none => none

/-- The devices passed on the way down a path, from the start on, without the
device the path ends at. -/
def DeviceType.ancestors : DeviceType → List Nat → List DeviceType
  | _, [] => []
  | d, i :: path =>
    match d.Devices[i]? with
    | some c => d :: c.ancestors path
    | none => []

/-! ## The renderer -/

/-- One write of the renderer to the tab writer. -/
inductive Line where
  /-- `fmt.Fprintf(w, "%s<label>\t%v\n", padding, value)`, the format
  starting with a tab when `tab` is set. -/
  | field (tab : Bool) (padding label value : String)
  /-- `fmt.Fprintf(w, "%s<title>\n", padding)`. -/
  | header (padding title : String)
  /-- `fmt.Fprintln(w, "")`. -/
  | blank
deriving DecidableEq, Repr

/-- The bytes a write sends to the tab writer. -/
def Line.text : Line → String
  | .field tab padding label value =>
    (if tab then "\t" else "") ++ padding ++ label ++ "\t" ++ value ++ "\n"
  | .header padding title => padding ++ title ++ "\n"
  | .blank => "\n"

/-- The loop over the services (describe.go, lines 138-145). -/
def servicePrinterLoop (padding : String) : List Service → List Line
  | [] => []
  | svc :: rest =>
    [ .field true padding "ServiceId" svc.ServiceId,
      .field true padding "ServiceType" svc.ServiceType,
      .field true padding "ControlURL" svc.ControlURL,
      .field true padding "EventSubURL" svc.EventSubURL,
      .field true padding "SCPD URL" svc.SCPDURL,
      .blank ] ++ servicePrinterLoop padding rest

mutual
/-- The function `describeDevicePrinter` (describe.go, lines 122-155): the
writes to `w`, in order. -/
def describeDevicePrinter : DeviceType → String → List Line
  | .mk device services devices, padding =>
    [ .field false padding "DeviceType" device.DeviceType,
      .field false padding "FriendlyName" device.FriendlyName,
      .field false padding "Manufacturer" device.Manufacturer,
      .field false padding "ManufacturerURL" device.ManufacturerURL,
      .field false padding "ModelName" device.ModelName,
      .field false padding "ModelDescription" device.ModelDescription,
      .field false padding "ModelURL" device.ModelURL,
      .field false padding "SerialNumber" device.SerialNumber,
      .field false padding "PresentationURL" device.PresentationURL,
      .field false padding "UPC" device.UPC,
      .field false padding "UDN" device.UDN,
      .blank ] ++
    (if services.length > 0 then
      .header padding "Services" :: servicePrinterLoop padding services
    else []) ++
    (if devices.length > 0 then
      .header padding "Devices:" :: devicePrinterLoop devices padding
    else [])
/-- The loop over the embedded devices (describe.go, lines 150-153). -/
def devicePrinterLoop : List DeviceType → String → List Line
  | [], _ => []
  | dev2 :: rest, padding =>
    describeDevicePrinter dev2 (padding ++ "    ") ++ [.blank] ++ devicePrinterLoop rest padding
end

/-! ## What the claims on the renderer speak of -/

/-- The label and the value of a write that prints an attribute. -/
def Line.pair : Line → Option (String × String)
  | .field _ _ label value => some (label, value)
  | _ => none

/-- The value of a write that prints the attribute `label`. -/
def Line.valueOf (label : String) : Line → Option String
  | .field _ _ l value => if l = label then some value else none
  | _ => none

/-- The attributes of a device with their labels, in the order of the
report. -/
def DeviceAttrs.labelled (a : DeviceAttrs) : List (String × String) :=
  [("DeviceType", a.DeviceType), ("FriendlyName", a.FriendlyName),
   ("Manufacturer", a.Manufacturer), ("ManufacturerURL", a.ManufacturerURL),
   ("ModelName", a.ModelName), ("ModelDescription", a.ModelDescription),
   ("ModelURL", a.ModelURL), ("SerialNumber", a.SerialNumber),
   ("PresentationURL", a.PresentationURL), ("UPC", a.UPC), ("UDN", a.UDN)]

/-- The attributes of a service with their labels, in the order of the
report. -/
def Service.labelled (s : Service) : List (String × String) :=
  [("ServiceId", s.ServiceId), ("ServiceType", s.ServiceType), ("ControlURL", s.ControlURL),
   ("EventSubURL", s.EventSubURL), ("SCPD URL", s.SCPDURL)]

/-- A string of `n` spaces. -/
def spaces (n : Nat) : String :=
  String.mk (List.replicate n ' ')

/-- The lines of a device itself for an indent, as the report is described:
its eleven attributes and a blank line; when it has services, the header
"Services" and for each service its five attributes after a tab and a blank
line; when it has embedded devices, the header "Devices:". -/
def specOwnLines (indent : String) (d : DeviceType) : List Line :=
  (d.attrs.labelled.map fun lv => Line.field false indent lv.1 lv.2) ++ [Line.blank] ++
  (if d.Services.isEmpty then []
    else Line.header indent "Services" ::
      d.Services.flatMap fun s =>
        (s.labelled.map fun lv => Line.field true indent lv.1 lv.2) ++ [Line.blank]) ++
  (if d.Devices.isEmpty then [] else [Line.header indent "Devices:"])

/-! ## Sample descriptions -/

/-- The attributes of a sample device with the given friendly name. -/
def sampleAttrs (name : String) : DeviceAttrs :=
  { DeviceType := "urn:schemas-upnp-org:device:Basic:1", FriendlyName := name,
    Manufacturer := "ACME", ManufacturerURL := "http://acme.example/",
    ModelName := "Model", ModelDescription := "A model",
    ModelURL := "http://acme.example/model", SerialNumber := "0001",
    PresentationURL := "/", UPC := "000000000000", UDN := "uuid:" ++ name }

/-- A sample service with the given id and SCPD URL. -/
def sampleService (id scpd : String) : Service :=
  { ServiceType := "urn:schemas-upnp-org:service:Basic:1", ServiceId := id, SCPDURL := scpd,
    ControlURL := "/ctl", EventSubURL := "/evt" }

/-- A root device without services and one embedded device with one service. -/
def sampleTree (id scpd : String) : DeviceType :=
  .mk (sampleAttrs "root") [] [.mk (sampleAttrs "embedded") [sampleService id scpd] []]

/-! ## Lemmas on the resolver -/

section Resolver

variable {U E : Type} (lib : NetURL U E) (deviceUrl serviceId : String)

theorem describeGetServiceLocation_mk (attrs : DeviceAttrs) (services : List Service)
    (devices : List DeviceType) :
    describeGetServiceLocation lib deviceUrl (.mk attrs services devices) serviceId =
      match serviceLoop lib deviceUrl serviceId services with
      | some r => ⟨r, []⟩
      | none => deviceLoop lib deviceUrl devices serviceId := by
  rw [describeGetServiceLocation]

theorem deviceLoop_nil :
    deviceLoop lib deviceUrl [] serviceId = ⟨.error .describeErrServiceNotFound, []⟩ := by
  rw [deviceLoop]

theorem deviceLoop_cons_ok (d : DeviceType) (ds : List DeviceType) (r : U)
    (h : (describeGetServiceLocation lib deviceUrl d serviceId).result = .ok r) :
    (deviceLoop lib deviceUrl (d :: ds) serviceId).result = .ok r := by
  rw [deviceLoop]
  rcases hd : describeGetServiceLocation lib deviceUrl d serviceId with ⟨res, l⟩
  rw [hd] at h
  cases res with
  | ok u => simpa using h
  | error e => simp at h

theorem deviceLoop_cons_error (d : DeviceType) (ds : List DeviceType) (e : Error E)
    (h : (describeGetServiceLocation lib deviceUrl d serviceId).result = .error e) :
    (deviceLoop lib deviceUrl (d :: ds) serviceId).result =
      (deviceLoop lib deviceUrl ds serviceId).result := by
  rw [deviceLoop]
  rcases hd : describeGetServiceLocation lib deviceUrl d serviceId with ⟨res, l⟩
  rw [hd] at h
  cases res with
  | ok u => simp at h
  | error e' => cases e' <;> rfl

theorem deviceLoop_log_cons_parse (d : DeviceType) (ds : List DeviceType) (e : E)
    (h : (describeGetServiceLocation lib deviceUrl d serviceId).result = .error (.parse e)) :
    (deviceLoop lib deviceUrl (d :: ds) serviceId).log =
      (describeGetServiceLocation lib deviceUrl d serviceId).log ++
        Error.parse e :: (deviceLoop lib deviceUrl ds serviceId).log := by
  rw [deviceLoop]
  rcases hd : describeGetServiceLocation lib deviceUrl d serviceId with ⟨res, l⟩
  rw [hd] at h
  cases res with
  | ok u => simp at h
  | error e' =>
    cases e' with
    | describeErrServiceNotFound => simp at h
    | parse e'' =>
      simp only [Except.error.injEq, Error.parse.injEq] at h
      subst h
      rfl

theorem serviceLoop_eq_none (services : List Service) :
    serviceLoop lib deviceUrl serviceId services = none ↔
      ∀ s ∈ services, s.ServiceId ≠ serviceId := by
  induction services with
  | nil => simp [serviceLoop]
  | cons svc rest ih =>
    by_cases h : svc.ServiceId = serviceId
    · simp [serviceLoop, h]
    · simp [serviceLoop, h, ih]

theorem serviceLoop_first (pre post : List Service) (s : Service)
    (hpre : ∀ x ∈ pre, x.ServiceId ≠ serviceId) (hs : s.ServiceId = serviceId) :
    serviceLoop lib deviceUrl serviceId (pre ++ s :: post) =
      some (resolveService lib deviceUrl s) := by
  induction pre with
  | nil => simp [serviceLoop, hs]
  | cons x rest ih =>
    have hx : x.ServiceId ≠ serviceId := hpre x (List.mem_cons_self _ _)
    have hrest : ∀ y ∈ rest, y.ServiceId ≠ serviceId :=
      fun y hy => hpre y (List.mem_cons_of_mem _ hy)
    simp [serviceLoop, hx, ih hrest]

theorem serviceLoop_eq_some (services : List Service) (r : Except (Error E) U)
    (h : serviceLoop lib deviceUrl serviceId services = some r) :
    ∃ s ∈ services, s.ServiceId = serviceId ∧ r = resolveService lib deviceUrl s := by
  induction services with
  | nil => simp [serviceLoop] at h
  | cons svc rest ih =>
    by_cases hm : svc.ServiceId = serviceId
    · simp only [serviceLoop, hm, if_true, Option.some.injEq] at h
      exact ⟨svc, List.mem_cons_self _ _, hm, h.symm⟩
    · simp only [serviceLoop, hm, if_false] at h
      obtain ⟨s, hs, hid, hr⟩ := ih h
      exact ⟨s, List.mem_cons_of_mem _ hs, hid, hr⟩

theorem resolveService_eq_ok (svc : Service) (r : U) :
    resolveService lib deviceUrl svc = .ok r ↔
      ∃ u v, lib.Parse deviceUrl = .ok u ∧ lib.Parse svc.SCPDURL = .ok v ∧
        r = lib.ResolveReference u v := by
  unfold resolveService
  cases hu : lib.Parse deviceUrl with
  | error e => simp
  | ok u =>
    cases hv : lib.Parse svc.SCPDURL with
    | error e => simp
    | ok v =>
      simp only [Except.ok.injEq]
      constructor
      · intro h
        exact ⟨u, v, rfl, rfl, h.symm⟩
      · rintro ⟨u', v', hu', hv', h⟩
        subst hu' hv'
        exact h.symm

theorem resolveService_ne_notFound (svc : Service) :
    resolveService lib deviceUrl svc ≠ .error .describeErrServiceNotFound := by
  unfold resolveService
  cases lib.Parse deviceUrl with
  | error e => simp
  | ok u =>
    cases lib.Parse svc.SCPDURL with
    | error e => simp
    | ok v => simp

/-- A device without a service of the wanted id is searched through its
embedded devices. -/
theorem describeGetServiceLocation_of_no_own (attrs : DeviceAttrs) (services : List Service)
    (devices : List DeviceType) (h : ∀ s ∈ services, s.ServiceId ≠ serviceId) :
    describeGetServiceLocation lib deviceUrl (.mk attrs services devices) serviceId =
      deviceLoop lib deviceUrl devices serviceId := by
  rw [describeGetServiceLocation_mk, (serviceLoop_eq_none lib deviceUrl serviceId services).2 h]

/-- The first service of the wanted id decides the search of its device. -/
theorem describeGetServiceLocation_of_first (attrs : DeviceAttrs) (pre post : List Service)
    (s : Service) (devices : List DeviceType)
    (hpre : ∀ x ∈ pre, x.ServiceId ≠ serviceId) (hs : s.ServiceId = serviceId) :
    describeGetServiceLocation lib deviceUrl (.mk attrs (pre ++ s :: post) devices) serviceId =
      ⟨resolveService lib deviceUrl s, []⟩ := by
  rw [describeGetServiceLocation_mk, serviceLoop_first lib deviceUrl serviceId pre post s hpre hs]

/-- The second loop skips the devices whose search fails. -/
theorem deviceLoop_skip (pre : List DeviceType) (rest : List DeviceType)
    (hpre : ∀ x ∈ pre, ∃ e, (describeGetServiceLocation lib deviceUrl x serviceId).result =
      .error e) :
    (deviceLoop lib deviceUrl (pre ++ rest) serviceId).result =
      (deviceLoop lib deviceUrl rest serviceId).result := by
  induction pre with
  | nil => rfl
  | cons x xs ih =>
    obtain ⟨e, he⟩ := hpre x (List.mem_cons_self _ _)
    rw [List.cons_append, deviceLoop_cons_error lib deviceUrl serviceId x _ e he]
    exact ih fun y hy => hpre y (List.mem_cons_of_mem _ hy)

/-- The second loop fails with "not found" only, and only when the search
of every device of the list failed. -/
theorem deviceLoop_eq_error (ds : List DeviceType) (e : Error E)
    (h : (deviceLoop lib deviceUrl ds serviceId).result = .error e) :
    e = .describeErrServiceNotFound ∧
      ∀ d ∈ ds, ∃ e', (describeGetServiceLocation lib deviceUrl d serviceId).result =
        .error e' := by
  induction ds with
  | nil =>
    rw [deviceLoop_nil] at h
    simp only [Except.error.injEq] at h
    exact ⟨h.symm, by simp⟩
  | cons d rest ih =>
    cases hd : (describeGetServiceLocation lib deviceUrl d serviceId).result with
    | ok u =>
      rw [deviceLoop_cons_ok lib deviceUrl serviceId d rest u hd] at h
      simp at h
    | error e' =>
      rw [deviceLoop_cons_error lib deviceUrl serviceId d rest e' hd] at h
      obtain ⟨h1, h2⟩ := ih h
      refine ⟨h1, ?_⟩
      intro x hx
      rcases List.mem_cons.1 hx with rfl | hx
      · exact ⟨e', hd⟩
      · exact h2 x hx

/-- A URL that the second loop returns is the result of the search of one
of the devices of the list. -/
theorem deviceLoop_eq_ok (ds : List DeviceType) (r : U)
    (h : (deviceLoop lib deviceUrl ds serviceId).result = .ok r) :
    ∃ d ∈ ds, (describeGetServiceLocation lib deviceUrl d serviceId).result = .ok r := by
  induction ds with
  | nil =>
    rw [deviceLoop_nil] at h
    simp at h
  | cons d rest ih =>
    cases hd : (describeGetServiceLocation lib deviceUrl d serviceId).result with
    | ok u =>
      rw [deviceLoop_cons_ok lib deviceUrl serviceId d rest u hd] at h
      simp only [Except.ok.injEq] at h
      subst h
      exact ⟨d, List.mem_cons_self _ _, hd⟩
    | error e' =>
      rw [deviceLoop_cons_error lib deviceUrl serviceId d rest e' hd] at h
      obtain ⟨x, hx, hr⟩ := ih h
      exact ⟨x, List.mem_cons_of_mem _ hx, hr⟩

end Resolver

/-! ## Induction on device trees -/

/-- Induction on a device tree together with its lists of embedded devices. -/
theorem DeviceType.induction {P : DeviceType → Prop} {Q : List DeviceType → Prop}
    (mk : ∀ attrs services devices, Q devices → P (.mk attrs services devices))
    (nil : Q []) (cons : ∀ d ds, P d → Q ds → Q (d :: ds)) :
    (∀ d, P d) ∧ ∀ ds, Q ds :=
  ⟨fun d => @DeviceType.rec P Q mk nil cons d, fun ds => @DeviceType.rec_1 P Q mk nil cons ds⟩

theorem preorder_mk (attrs : DeviceAttrs) (services : List Service)
    (devices : List DeviceType) :
    (DeviceType.mk attrs services devices).preorder =
      .mk attrs services devices :: preorderList devices := by
  rw [DeviceType.preorder]

theorem preorderList_cons (d : DeviceType) (ds : List DeviceType) :
    preorderList (d :: ds) = d.preorder ++ preorderList ds := by
  rw [preorderList]

theorem mem_preorder_self (d : DeviceType) : d ∈ d.preorder := by
  cases d with
  | mk a s ds => rw [preorder_mk]; exact List.mem_cons_self _ _

theorem preorder_subset_preorderList (ds : List DeviceType) (d : DeviceType) (hd : d ∈ ds) :
    ∀ x ∈ d.preorder, x ∈ preorderList ds := by
  induction ds with
  | nil => cases hd
  | cons y ys ih =>
    intro x hx
    rw [preorderList_cons]
    rcases List.mem_cons.1 hd with rfl | hd
    · exact List.mem_append_left _ hx
    · exact List.mem_append_right _ (ih hd x hx)

/-- Induction on a device tree: a property that holds of a device whenever it
holds of its embedded devices holds of every device. -/
theorem DeviceType.induction_on {P : DeviceType → Prop}
    (mk : ∀ attrs services devices, (∀ d ∈ devices, P d) → P (.mk attrs services devices))
    (d : DeviceType) : P d :=
  (DeviceType.induction (P := P) (Q := fun ds => ∀ d ∈ ds, P d) mk
    (fun _ h => absurd h (List.not_mem_nil _))
    (fun d ds hd hds x hx => by
      rcases List.mem_cons.1 hx with rfl | hx
      · exact hd
      · exact hds x hx)).1 d

theorem mem_preorderList (ds : List DeviceType) (x : DeviceType) (hx : x ∈ preorderList ds) :
    ∃ d ∈ ds, x ∈ d.preorder := by
  induction ds with
  | nil => simp [preorderList] at hx
  | cons y ys ih =>
    rw [preorderList_cons] at hx
    rcases List.mem_append.1 hx with h | h
    · exact ⟨y, List.mem_cons_self _ _, h⟩
    · obtain ⟨d, hd, hxd⟩ := ih h
      exact ⟨d, List.mem_cons_of_mem _ hd, hxd⟩

theorem descend_cons (d : DeviceType) (i : Nat) (path : List Nat) (c : DeviceType)
    (hc : d.Devices[i]? = some c) : d.descend (i :: path) = c.descend path := by
  rw [DeviceType.descend, hc]

/-- Every device of the pre-order is reached by a path from the root. -/
theorem descend_of_mem_preorder (root x : DeviceType) (hx : x ∈ root.preorder) :
    ∃ path, root.descend path = some x := by
  induction root using DeviceType.induction_on with
  | mk attrs services devices ih =>
    rw [preorder_mk] at hx
    rcases List.mem_cons.1 hx with rfl | hx
    · exact ⟨[], by rw [DeviceType.descend]⟩
    · obtain ⟨d, hd, hxd⟩ := mem_preorderList devices x hx
      obtain ⟨path, hpath⟩ := ih d hd hxd
      obtain ⟨i, hi⟩ := List.getElem?_of_mem hd
      exact ⟨i :: path, by rw [descend_cons (.mk attrs services devices) i path d hi, hpath]⟩

/-- Every device reached by a path from the root is in the pre-order. -/
theorem mem_preorder_of_descend (path : List Nat) (root x : DeviceType)
    (hx : root.descend path = some x) : x ∈ root.preorder := by
  induction path generalizing root with
  | nil =>
    rw [DeviceType.descend] at hx
    simp only [Option.some.injEq] at hx
    subst hx
    exact mem_preorder_self _
  | cons i path ih =>
    cases hc : root.Devices[i]? with
    | none =>
      rw [DeviceType.descend, hc] at hx
      simp at hx
    | some c =>
      rw [descend_cons root i path c hc] at hx
      have hmem : c ∈ root.Devices := List.getElem?_mem hc
      cases root with
      | mk a s ds =>
        rw [preorder_mk]
        exact List.mem_cons_of_mem _ (preorder_subset_preorderList ds c hmem x (ih c hx))

/-- The search of a device whose first service with the wanted id resolves. -/
theorem first_match_decides_aux {U E : Type} (lib : NetURL U E) (deviceUrl : String)
    (attrs : DeviceAttrs) (pre post : List Service) (s : Service) (devices : List DeviceType)
    (serviceId : String) (hpre : ∀ x ∈ pre, x.ServiceId ≠ serviceId)
    (hs : s.ServiceId = serviceId) (u v : U) (hu : lib.Parse deviceUrl = .ok u)
    (hv : lib.Parse s.SCPDURL = .ok v) :
    (describeGetServiceLocation lib deviceUrl (.mk attrs (pre ++ s :: post) devices)
      serviceId).result = .ok (lib.ResolveReference u v) := by
  rw [describeGetServiceLocation_of_first lib deviceUrl serviceId attrs pre post s devices hpre hs]
  exact (resolveService_eq_ok lib deviceUrl s (lib.ResolveReference u v)).2 ⟨u, v, hu, hv, rfl⟩

/-! ## Lemmas on `resolvePath` -/

namespace url

theorem split_ne_nil (sep : Char) (s : List Char) : split sep s ≠ [] := by
  cases s with
  | nil => simp [split]
  | cons c rest =>
    by_cases h : c = sep
    · simp [split, h]
    · cases hs : split sep rest <;> simp [split, h, hs]

theorem split_append_sep (sep : Char) (a b : List Char) :
    split sep (a ++ sep :: b) = split sep a ++ split sep b := by
  induction a with
  | nil => simp [split]
  | cons c rest ih =>
    by_cases h : c = sep
    · simp [split, h, ih]
    · cases hs : split sep rest with
      | nil => exact absurd hs (split_ne_nil sep rest)
      | cons e es => simp [split, h, ih, hs]

theorem not_mem_of_mem_split (sep : Char) (s e : List Char) (he : e ∈ split sep s) :
    sep ∉ e := by
  induction s generalizing e with
  | nil =>
    simp only [split, List.mem_singleton] at he
    subst he
    simp
  | cons c rest ih =>
    by_cases h : c = sep
    · simp only [split, h, if_true, List.mem_cons] at he
      rcases he with rfl | he
      · simp
      · exact ih e he
    · cases hs : split sep rest with
      | nil => exact absurd hs (split_ne_nil sep rest)
      | cons x xs =>
        simp only [split, h, if_false, hs, List.mem_cons] at he
        rcases he with rfl | he
        · have hx := ih x (by rw [hs]; exact List.mem_cons_self _ _)
          intro hmem
          rcases List.mem_cons.1 hmem with h1 | h1
          · exact h h1.symm
          · exact hx h1
        · exact ih e (by rw [hs]; exact List.mem_cons_of_mem _ he)

theorem split_of_not_mem (sep : Char) (e : List Char) (he : sep ∉ e) : split sep e = [e] := by
  induction e with
  | nil => rfl
  | cons c rest ih =>
    have hc : c ≠ sep := fun h => he (by rw [h]; exact List.mem_cons_self _ _)
    have hrest : sep ∉ rest := fun h => he (List.mem_cons_of_mem _ h)
    simp [split, hc, ih hrest]

theorem eq_of_lastIndex (sep : Char) (s : List Char) (i : Nat)
    (h : lastIndex sep s = some i) : s = s.take i ++ sep :: s.drop (i + 1) := by
  induction s generalizing i with
  | nil => simp [lastIndex] at h
  | cons c rest ih =>
    cases hr : lastIndex sep rest with
    | some j =>
      simp only [lastIndex, hr, Option.some.injEq] at h
      subst h
      have := ih j hr
      simp only [List.take_succ_cons, List.drop_succ_cons, List.cons_append]
      exact congrArg _ this
    | none =>
      by_cases hc : c = sep
      · simp only [lastIndex, hr, hc, if_true, Option.some.injEq] at h
        subst h
        simp [hc]
      · simp [lastIndex, hr, hc] at h

theorem flatMap_split (sep : Char) (s : List Char) :
    ((split sep s).flatMap fun e => sep :: e) = sep :: s := by
  induction s with
  | nil => rfl
  | cons c rest ih =>
    by_cases h : c = sep
    · simp only [split, h, if_true, List.flatMap_cons, ih]
      rfl
    · cases hs : split sep rest with
      | nil => exact absurd hs (split_ne_nil sep rest)
      | cons e es =>
        rw [hs, List.flatMap_cons] at ih
        simp only [split, h, if_false, hs, List.flatMap_cons]
        simp only [List.cons_append, List.cons.injEq, true_and] at ih ⊢
        exact ih

/-- The loop of `resolvePath` keeps a buffer that starts with a slash and has
no dot segment after it, and that is that slash alone while `first` is
set. -/
theorem resolvePathStep_inv (st : List Char × Bool) (elem body : List Char)
    (hdst : st.1 = '/' :: body)
    (hbody : ∀ e ∈ split '/' body, e ≠ ['.'] ∧ e ≠ ['.', '.'])
    (hfirst : st.2 = true → body = []) (helem : '/' ∉ elem) :
    ∃ body', (resolvePathStep st elem).1 = '/' :: body' ∧
      (∀ e ∈ split '/' body', e ≠ ['.'] ∧ e ≠ ['.', '.']) ∧
      ((resolvePathStep st elem).2 = true → body' = []) := by
  unfold resolvePathStep
  by_cases h1 : elem = ['.']
  · simp only [h1, if_true]
    exact ⟨body, hdst, hbody, fun h => by simp at h⟩
  · by_cases h2 : elem = ['.', '.']
    · simp only [h1, h2, if_true, if_false]
      rw [hdst, List.drop_succ_cons, List.drop_zero]
      cases hl : lastIndex '/' body with
      | none => exact ⟨[], rfl, by simp [split], fun _ => rfl⟩
      | some i =>
        refine ⟨body.take i, rfl, ?_, ?_⟩
        · intro e he
          apply hbody e
          rw [eq_of_lastIndex '/' body i hl, split_append_sep]
          exact List.mem_append_left _ he
        · intro hf
          have := hfirst hf
          rw [this] at hl
          simp [lastIndex] at hl
    · simp only [h1, h2, if_false]
      cases hf : st.2 with
      | true =>
        have hb := hfirst hf
        subst hb
        refine ⟨elem, by simp [hdst], ?_, fun h => by simp at h⟩
        rw [split_of_not_mem '/' elem helem]
        intro e he
        rw [List.mem_singleton] at he
        subst he
        exact ⟨h1, h2⟩
      | false =>
        refine ⟨body ++ '/' :: elem, by simp [hdst], ?_, fun h => by simp at h⟩
        rw [split_append_sep, split_of_not_mem '/' elem helem]
        intro e he
        rcases List.mem_append.1 he with he | he
        · exact hbody e he
        · rw [List.mem_singleton] at he
          subst he
          exact ⟨h1, h2⟩

theorem foldl_resolvePathStep_inv (elems : List (List Char)) (st : List Char × Bool)
    (body : List Char) (hdst : st.1 = '/' :: body)
    (hbody : ∀ e ∈ split '/' body, e ≠ ['.'] ∧ e ≠ ['.', '.'])
    (hfirst : st.2 = true → body = []) (helems : ∀ e ∈ elems, '/' ∉ e) :
    ∃ body', (elems.foldl resolvePathStep st).1 = '/' :: body' ∧
      ∀ e ∈ split '/' body', e ≠ ['.'] ∧ e ≠ ['.', '.'] := by
  induction elems generalizing st body with
  | nil => exact ⟨body, hdst, hbody⟩
  | cons x xs ih =>
    obtain ⟨b, hb1, hb2, hb3⟩ := resolvePathStep_inv st x body hdst hbody hfirst
      (helems x (List.mem_cons_self _ _))
    exact ih (resolvePathStep st x) b hb1 hb2 hb3 fun e he => helems e (List.mem_cons_of_mem _ he)

/-- The path that `resolvePath` returns has no segment `.` or `..`. -/
theorem resolvePath_no_dot_segment (base ref : List Char) :
    ∀ e ∈ split '/' (resolvePath base ref), e ≠ ['.'] ∧ e ≠ ['.', '.'] := by
  have key : ∀ full : List Char, ∀ e ∈ split '/'
      (if full = [] then []
        else
          let elems := split '/' full
          let dst := (elems.foldl resolvePathStep (['/'], true)).1
          let dst := if elems.getLast? = some ['.'] ∨ elems.getLast? = some ['.', '.']
            then dst ++ ['/'] else dst
          if dst.length > 1 ∧ (dst.drop 1).head? = some '/' then dst.drop 1 else dst),
      e ≠ ['.'] ∧ e ≠ ['.', '.'] := by
    intro full
    by_cases hfull : full = []
    · simp [hfull, split]
    · simp only [hfull, if_false]
      obtain ⟨body, hb1, hb2⟩ := foldl_resolvePathStep_inv (split '/' full) (['/'], true) []
        rfl (by simp [split]) (fun _ => rfl) (fun e he => not_mem_of_mem_split '/' full e he)
      have hfin : ∃ body', (if (split '/' full).getLast? = some ['.'] ∨
            (split '/' full).getLast? = some ['.', '.']
          then ((split '/' full).foldl resolvePathStep (['/'], true)).1 ++ ['/']
          else ((split '/' full).foldl resolvePathStep (['/'], true)).1) = '/' :: body' ∧
          ∀ e ∈ split '/' body', e ≠ ['.'] ∧ e ≠ ['.', '.'] := by
        split
        · refine ⟨body ++ ['/'], by rw [hb1]; rfl, ?_⟩
          rw [split_append_sep]
          intro e he
          rcases List.mem_append.1 he with he | he
          · exact hb2 e he
          · simp only [split, List.mem_singleton] at he
            subst he
            simp
        · exact ⟨body, hb1, hb2⟩
      obtain ⟨body', hd, hb'⟩ := hfin
      rw [hd]
      split
      · intro e he
        exact hb' e (by simpa using he)
      · intro e he
        have : split '/' ('/' :: body') = [] :: split '/' body' := by simp [split]
        rw [this] at he
        rcases List.mem_cons.1 he with rfl | he
        · simp
        · exact hb' e he
  unfold resolvePath
  exact key _

theorem foldl_resolvePathStep_clean (elems : List (List Char)) (dst : List Char)
    (h : ∀ e ∈ elems, e ≠ ['.'] ∧ e ≠ ['.', '.']) :
    elems.foldl resolvePathStep (dst, false) =
      (dst ++ elems.flatMap fun e => '/' :: e, false) := by
  induction elems generalizing dst with
  | nil => simp
  | cons x xs ih =>
    have hx := h x (List.mem_cons_self _ _)
    rw [List.foldl_cons]
    have hstep : resolvePathStep (dst, false) x = (dst ++ '/' :: x, false) := by
      simp [resolvePathStep, hx.1, hx.2]
    rw [hstep, ih _ fun e he => h e (List.mem_cons_of_mem _ he)]
    simp

/-- A rooted or empty path without a segment `.` or `..` is what
`resolvePath` returns for it and an empty reference. -/
theorem resolvePath_of_clean (p : List Char) (hroot : p = [] ∨ p.head? = some '/')
    (hclean : ∀ e ∈ split '/' p, e ≠ ['.'] ∧ e ≠ ['.', '.']) : resolvePath p [] = p := by
  cases p with
  | nil => simp [resolvePath]
  | cons c rest =>
    have hc : c = '/' := by
      rcases hroot with h | h
      · cases h
      · simpa using h
    subst hc
    have hsplit : split '/' ('/' :: rest) = [] :: split '/' rest := by simp [split]
    have hrest : ∀ e ∈ split '/' rest, e ≠ ['.'] ∧ e ≠ ['.', '.'] := by
      intro e he
      apply hclean e
      rw [hsplit]
      exact List.mem_cons_of_mem _ he
    have hlast : ¬ ((split '/' ('/' :: rest)).getLast? = some ['.'] ∨
        (split '/' ('/' :: rest)).getLast? = some ['.', '.']) := by
      rintro (h | h)
      · exact (hclean _ (List.mem_of_getLast?_eq_some h)).1 rfl
      · exact (hclean _ (List.mem_of_getLast?_eq_some h)).2 rfl
    have hfold : (split '/' ('/' :: rest)).foldl resolvePathStep (['/'], true) =
        ('/' :: '/' :: rest, false) := by
      rw [hsplit, List.foldl_cons]
      have h0 : resolvePathStep (['/'], true) [] = (['/'], false) := by
        simp [resolvePathStep]
      rw [h0, foldl_resolvePathStep_clean _ _ hrest, flatMap_split]
      rfl
    unfold resolvePath
    simp only [if_true, List.cons_ne_nil, if_false, hlast, hfold]
    simp

end url

/-- A URL that the search returns is the resolution of a service with the
wanted id of a device of the tree. -/
theorem search_ok_selected {U E : Type} (lib : NetURL U E) (deviceUrl : String)
    (root : DeviceType) (serviceId : String) (r : U)
    (h : (describeGetServiceLocation lib deviceUrl root serviceId).result = .ok r) :
    ∃ x ∈ root.preorder, ∃ s ∈ x.Services, s.ServiceId = serviceId ∧
      resolveService lib deviceUrl s = .ok r := by
  induction root using DeviceType.induction_on generalizing r with
  | mk attrs services devices ih =>
    rw [describeGetServiceLocation_mk] at h
    cases hloop : serviceLoop lib deviceUrl serviceId services with
    | some res =>
      rw [hloop] at h
      obtain ⟨s, hsmem, hid, hres⟩ := serviceLoop_eq_some lib deviceUrl serviceId services res hloop
      refine ⟨.mk attrs services devices, mem_preorder_self _, s, hsmem, hid, ?_⟩
      rw [← hres]
      exact h
    | none =>
      rw [hloop] at h
      obtain ⟨d, hd, hr⟩ := deviceLoop_eq_ok lib deviceUrl serviceId devices r h
      obtain ⟨x, hxmem, hx⟩ := ih d hd r hr
      refine ⟨x, ?_, hx⟩
      rw [preorder_mk]
      exact List.mem_cons_of_mem _ (preorder_subset_preorderList devices d hd x hxmem)

/-- When every service with the wanted id resolves, a search that fails has
met no service with the wanted id. -/
theorem search_error_no_match {U E : Type} (lib : NetURL U E) (deviceUrl : String)
    (serviceId : String) (d : DeviceType)
    (hres : ∀ y ∈ d.preorder, ∀ t ∈ y.Services, t.ServiceId = serviceId →
      ∃ r, resolveService lib deviceUrl t = .ok r)
    (e : Error E)
    (he : (describeGetServiceLocation lib deviceUrl d serviceId).result = .error e) :
    ∀ y ∈ d.preorder, ∀ t ∈ y.Services, t.ServiceId ≠ serviceId := by
  induction d using DeviceType.induction_on generalizing e with
  | mk a sv ds ih =>
    have hown : ∀ s ∈ sv, s.ServiceId ≠ serviceId := by
      rw [describeGetServiceLocation_mk] at he
      cases hloop : serviceLoop lib deviceUrl serviceId sv with
      | none => exact (serviceLoop_eq_none lib deviceUrl serviceId sv).1 hloop
      | some res =>
        rw [hloop] at he
        simp only at he
        obtain ⟨s, hsmem, hid, hr⟩ := serviceLoop_eq_some lib deviceUrl serviceId sv res hloop
        obtain ⟨r, hok⟩ := hres (.mk a sv ds) (mem_preorder_self _) s hsmem hid
        rw [he, hok] at hr
        simp at hr
    rw [describeGetServiceLocation_of_no_own lib deviceUrl serviceId a sv ds hown] at he
    have hsub := (deviceLoop_eq_error lib deviceUrl serviceId ds e he).2
    intro y hy
    rw [preorder_mk] at hy
    rcases List.mem_cons.1 hy with rfl | hy
    · exact hown
    · obtain ⟨c, hc, hyc⟩ := mem_preorderList ds y hy
      obtain ⟨e', he'⟩ := hsub c hc
      refine ih c hc ?_ e' he' y hyc
      intro z hz
      apply hres z
      rw [preorder_mk]
      exact List.mem_cons_of_mem _ (preorder_subset_preorderList ds c hc z hz)

/-- A reference with a scheme resolves to itself with its path set anew. -/
theorem resolveReference_of_scheme (u v : url.URL) (h : v.Scheme ≠ "") :
    u.ResolveReference v = v.setPathIgnore (url.resolvePath v.EscapedPath []) := by
  simp only [url.URL.ResolveReference, h, if_false, ne_eq, not_false_eq_true, true_or, if_true]

/-- A path set anew leaves the other fields as they are. -/
theorem setPathIgnore_fields (v : url.URL) (p : List Char) :
    { v.setPathIgnore p with Path := v.Path, RawPath := v.RawPath } = v := by
  unfold url.URL.setPathIgnore url.URL.setPath
  cases url.unescape p .encodePath with
  | error e => rfl
  | ok path => by_cases h : p = url.escape path .encodePath <;> simp [h]

/-! ## The claims on the resolver -/

/-- C1 (not-found terminal): for every URL package, every document URL string,
parsable or not, every device tree and every target id, if no service of any
device of the tree has the target id, then `describeGetServiceLocation`
returns no URL and the error `describeErrServiceNotFound`, and logs
nothing. -/
theorem not_found_terminal {U E : Type} (lib : NetURL U E) (deviceUrl : String)
    (dev : DeviceType) (serviceId : String)
    (h : ∀ x ∈ dev.preorder, ∀ s ∈ x.Services, s.ServiceId ≠ serviceId) :
    describeGetServiceLocation lib deviceUrl dev serviceId =
      ⟨.error .describeErrServiceNotFound, []⟩ := by
  induction dev using DeviceType.induction_on with
  | mk attrs services devices ih =>
    have hown : ∀ s ∈ services, s.ServiceId ≠ serviceId :=
      h (.mk attrs services devices) (mem_preorder_self _)
    rw [describeGetServiceLocation_of_no_own lib deviceUrl serviceId attrs services devices hown]
    have hsub : ∀ d ∈ devices, describeGetServiceLocation lib deviceUrl d serviceId =
        ⟨.error .describeErrServiceNotFound, []⟩ := by
      intro d hd
      apply ih d hd
      intro x hx
      apply h x
      rw [preorder_mk]
      exact List.mem_cons_of_mem _ (preorder_subset_preorderList devices d hd x hx)
    clear ih h hown
    induction devices with
    | nil => exact deviceLoop_nil lib deviceUrl serviceId
    | cons d ds ihd =>
      rw [deviceLoop, hsub d (List.mem_cons_self _ _),
        ihd fun x hx => hsub x (List.mem_cons_of_mem _ hx)]
      rfl

/-- A witness of C1: an unparsable document URL and a tree without the
target id. -/
theorem not_found_terminal_witness :
    describeGetServiceLocation netURL ":" (sampleTree "urn:X-1" "%zz") "urn:X-2" =
      ⟨.error .describeErrServiceNotFound, []⟩ :=
  not_found_terminal netURL ":" (sampleTree "urn:X-1" "%zz") "urn:X-2" (by decide)

/-- C2 (first match, self before children): when the own service list of a
device holds a service with the target id, the first such service `s` alone
decides the result, which is the resolution of `s`; so when the document URL
and `s.SCPDURL` both parse, the result is
`parse(deviceUrl).ResolveReference(parse(s.SCPDURL))`, whatever the later
services and the embedded devices are. -/
theorem first_match_decides {U E : Type} (lib : NetURL U E) (deviceUrl : String)
    (attrs : DeviceAttrs) (pre post : List Service) (s : Service) (devices : List DeviceType)
    (serviceId : String) (hpre : ∀ x ∈ pre, x.ServiceId ≠ serviceId)
    (hs : s.ServiceId = serviceId) :
    (describeGetServiceLocation lib deviceUrl (.mk attrs (pre ++ s :: post) devices)
        serviceId).result = resolveService lib deviceUrl s ∧
      ∀ u v, lib.Parse deviceUrl = .ok u → lib.Parse s.SCPDURL = .ok v →
        (describeGetServiceLocation lib deviceUrl (.mk attrs (pre ++ s :: post) devices)
          serviceId).result = .ok (lib.ResolveReference u v) := by
  rw [describeGetServiceLocation_of_first lib deviceUrl serviceId attrs pre post s devices hpre hs]
  refine ⟨rfl, ?_⟩
  intro u v hu hv
  exact (resolveService_eq_ok lib deviceUrl s (lib.ResolveReference u v)).2 ⟨u, v, hu, hv, rfl⟩

/-- A witness of C2: two services with the target id after one without it,
and an embedded device with the target id as well. -/
theorem first_match_decides_witness :
    (describeGetServiceLocation netURL "http://10.0.0.5:1400/desc.xml"
        (.mk (sampleAttrs "root")
          ([sampleService "urn:X-0" "/scpd0.xml"] ++ sampleService "urn:X-1" "/scpd1.xml" ::
            [sampleService "urn:X-1" "/scpd2.xml"])
          [sampleTree "urn:X-1" "/scpd3.xml"])
        "urn:X-1").result =
        resolveService netURL "http://10.0.0.5:1400/desc.xml"
          (sampleService "urn:X-1" "/scpd1.xml") ∧
      ∀ u v, netURL.Parse "http://10.0.0.5:1400/desc.xml" = .ok u →
        netURL.Parse (sampleService "urn:X-1" "/scpd1.xml").SCPDURL = .ok v →
        (describeGetServiceLocation netURL "http://10.0.0.5:1400/desc.xml"
          (.mk (sampleAttrs "root")
            ([sampleService "urn:X-0" "/scpd0.xml"] ++ sampleService "urn:X-1" "/scpd1.xml" ::
              [sampleService "urn:X-1" "/scpd2.xml"])
            [sampleTree "urn:X-1" "/scpd3.xml"])
          "urn:X-1").result = .ok (netURL.ResolveReference u v) :=
  first_match_decides netURL "http://10.0.0.5:1400/desc.xml" (sampleAttrs "root")
    [sampleService "urn:X-0" "/scpd0.xml"] [sampleService "urn:X-1" "/scpd2.xml"]
    (sampleService "urn:X-1" "/scpd1.xml") [sampleTree "urn:X-1" "/scpd3.xml"] "urn:X-1"
    (by decide) rfl

/-- C3 (resolution base invariant): whenever the search of a tree succeeds,
the URL it returns is `parse(deviceUrl).ResolveReference(parse(s.SCPDURL))`
for a service `s` with the target id of a device reached by some path from
the root, whatever the length of the path, with `deviceUrl` the document URL
of the top-level call; the same service put directly in a root's service
list resolves to the same URL. -/
theorem resolution_base_invariant {U E : Type} (lib : NetURL U E) (deviceUrl : String)
    (root : DeviceType) (serviceId : String) (r : U)
    (h : (describeGetServiceLocation lib deviceUrl root serviceId).result = .ok r) :
    ∃ path x, root.descend path = some x ∧ ∃ s ∈ x.Services, s.ServiceId = serviceId ∧
      (∃ u v, lib.Parse deviceUrl = .ok u ∧ lib.Parse s.SCPDURL = .ok v ∧
        r = lib.ResolveReference u v) ∧
      ∀ attrs, (describeGetServiceLocation lib deviceUrl (.mk attrs [s] []) serviceId).result =
        .ok r := by
  suffices hx : ∃ x ∈ root.preorder, ∃ s ∈ x.Services, s.ServiceId = serviceId ∧
      resolveService lib deviceUrl s = .ok r by
    obtain ⟨x, hxmem, s, hsmem, hid, hres⟩ := hx
    obtain ⟨path, hpath⟩ := descend_of_mem_preorder root x hxmem
    refine ⟨path, x, hpath, s, hsmem, hid,
      (resolveService_eq_ok lib deviceUrl s r).1 hres, ?_⟩
    intro attrs
    have := describeGetServiceLocation_of_first lib deviceUrl serviceId attrs [] [] s []
      (fun _ hm => absurd hm (List.not_mem_nil _)) hid
    rw [List.nil_append] at this
    rw [this, hres]
  induction root using DeviceType.induction_on generalizing r with
  | mk attrs services devices ih =>
    rw [describeGetServiceLocation_mk] at h
    cases hloop : serviceLoop lib deviceUrl serviceId services with
    | some res =>
      rw [hloop] at h
      obtain ⟨s, hsmem, hid, hres⟩ := serviceLoop_eq_some lib deviceUrl serviceId services res hloop
      refine ⟨.mk attrs services devices, mem_preorder_self _, s, hsmem, hid, ?_⟩
      rw [← hres]
      exact h
    | none =>
      rw [hloop] at h
      obtain ⟨d, hd, hr⟩ := deviceLoop_eq_ok lib deviceUrl serviceId devices r h
      obtain ⟨x, hxmem, hx⟩ := ih d hd r hr
      refine ⟨x, ?_, hx⟩
      rw [preorder_mk]
      exact List.mem_cons_of_mem _ (preorder_subset_preorderList devices d hd x hxmem)

/-- A witness of C3: the service of an embedded device. -/
theorem resolution_base_invariant_witness :
    ∃ path x, (sampleTree "urn:X-1" "/scpd1.xml").descend path = some x ∧
      ∃ s ∈ x.Services, s.ServiceId = "urn:X-1" ∧
      (∃ u v, netURL.Parse "http://10.0.0.5:1400/desc.xml" = .ok u ∧
        netURL.Parse s.SCPDURL = .ok v ∧
        (url.URL.ResolveReference
          (url.URL.mk "http" "" none "10.0.0.5:1400" "/desc.xml" "" false false "" "" "")
          (url.URL.mk "" "" none "" "/scpd1.xml" "" false false "" "" "")) =
            netURL.ResolveReference u v) ∧
      ∀ attrs, (describeGetServiceLocation netURL "http://10.0.0.5:1400/desc.xml"
        (.mk attrs [s] []) "urn:X-1").result =
        .ok (url.URL.ResolveReference
          (url.URL.mk "http" "" none "10.0.0.5:1400" "/desc.xml" "" false false "" "" "")
          (url.URL.mk "" "" none "" "/scpd1.xml" "" false false "" "" "")) :=
  resolution_base_invariant netURL "http://10.0.0.5:1400/desc.xml"
    (sampleTree "urn:X-1" "/scpd1.xml") "urn:X-1" _ rfl

/-- A successful search of one device of the list makes the second loop
return a URL. -/
theorem deviceLoop_ok_of_mem {U E : Type} (lib : NetURL U E) (deviceUrl serviceId : String)
    (ds : List DeviceType) (d : DeviceType) (r : U) (hd : d ∈ ds)
    (h : (describeGetServiceLocation lib deviceUrl d serviceId).result = .ok r) :
    ∃ r', (deviceLoop lib deviceUrl ds serviceId).result = .ok r' := by
  induction ds with
  | nil => cases hd
  | cons x xs ih =>
    cases hx : (describeGetServiceLocation lib deviceUrl x serviceId).result with
    | ok u => exact ⟨u, deviceLoop_cons_ok lib deviceUrl serviceId x xs u hx⟩
    | error e =>
      rw [deviceLoop_cons_error lib deviceUrl serviceId x xs e hx]
      rcases List.mem_cons.1 hd with rfl | hd
      · rw [hx] at h
        simp at h
      · exact ih hd

/-- C4, as stated, fails: with a root without a service of the target id, a
first embedded device whose only candidate has the SCPD URL `%zz`, a second
embedded device that has a service with the target id whose SCPD URL parses,
and a document URL that parses, the search returns
`describeErrServiceNotFound` when the second device lists a malformed
candidate before the good one. -/
theorem second_device_malformed_first_counterexample :
    (∀ s ∈ [sampleService "urn:X-0" "/scpd0.xml"], s.ServiceId ≠ "urn:X-1") ∧
    (describeGetServiceLocation netURL "http://10.0.0.5:1400/desc.xml"
        (.mk (sampleAttrs "first") [sampleService "urn:X-1" "%zz"] []) "urn:X-1").result =
      .error (.parse (.escapeError "%zz")) ∧
    (∃ s ∈ [sampleService "urn:X-1" "%zz", sampleService "urn:X-1" "/scpd1.xml"],
      s.ServiceId = "urn:X-1" ∧ ∃ v, url.Parse s.SCPDURL = .ok v) ∧
    (∃ u, url.Parse "http://10.0.0.5:1400/desc.xml" = .ok u) ∧
    (describeGetServiceLocation netURL "http://10.0.0.5:1400/desc.xml"
        (.mk (sampleAttrs "root") [sampleService "urn:X-0" "/scpd0.xml"]
          [.mk (sampleAttrs "first") [sampleService "urn:X-1" "%zz"] [],
           .mk (sampleAttrs "second")
            [sampleService "urn:X-1" "%zz", sampleService "urn:X-1" "/scpd1.xml"] []])
        "urn:X-1").result = .error .describeErrServiceNotFound :=
  ⟨by decide, rfl,
    ⟨sampleService "urn:X-1" "/scpd1.xml", List.mem_cons_of_mem _ (List.mem_cons_self _ _), rfl,
      _, rfl⟩,
    ⟨_, rfl⟩, rfl⟩

/-- C4, amended (partial-failure tolerance): for a root without a service of
the target id and with two embedded devices, if the search of the first fails
with a URL parse error, the first service with the target id in the own list
of the second has an SCPD URL that parses, and the document URL parses, then
`describeGetServiceLocation` returns the location of that service resolved
against the document URL, and no error; the parse error of the first is
logged. -/
theorem failed_sibling_tolerance {U E : Type} (lib : NetURL U E) (deviceUrl : String)
    (attrs : DeviceAttrs) (services : List Service) (d1 : DeviceType) (attrs2 : DeviceAttrs)
    (pre post : List Service) (s2 : Service) (devices2 : List DeviceType) (serviceId : String)
    (e : E) (u v : U)
    (hroot : ∀ s ∈ services, s.ServiceId ≠ serviceId)
    (h1 : (describeGetServiceLocation lib deviceUrl d1 serviceId).result = .error (.parse e))
    (hpre : ∀ x ∈ pre, x.ServiceId ≠ serviceId) (hs2 : s2.ServiceId = serviceId)
    (hu : lib.Parse deviceUrl = .ok u) (hv : lib.Parse s2.SCPDURL = .ok v) :
    (describeGetServiceLocation lib deviceUrl
        (.mk attrs services [d1, .mk attrs2 (pre ++ s2 :: post) devices2]) serviceId).result =
        .ok (lib.ResolveReference u v) ∧
      Error.parse e ∈ (describeGetServiceLocation lib deviceUrl
        (.mk attrs services [d1, .mk attrs2 (pre ++ s2 :: post) devices2]) serviceId).log := by
  have h2 := (first_match_decides_aux lib deviceUrl attrs2 pre post s2 devices2 serviceId
    hpre hs2 u v hu hv)
  rw [describeGetServiceLocation_of_no_own lib deviceUrl serviceId attrs services _ hroot]
  constructor
  · rw [deviceLoop_cons_error lib deviceUrl serviceId d1 _ _ h1]
    exact deviceLoop_cons_ok lib deviceUrl serviceId _ [] _ h2
  · rw [deviceLoop_log_cons_parse lib deviceUrl serviceId d1 _ e h1]
    simp

/-- A witness of C4 amended: the only candidate of the first embedded device
has the SCPD URL `%zz`, which does not parse. -/
theorem failed_sibling_tolerance_witness :
    (describeGetServiceLocation netURL "http://10.0.0.5:1400/desc.xml"
        (.mk (sampleAttrs "root") [sampleService "urn:X-0" "/scpd0.xml"]
          [.mk (sampleAttrs "first") [sampleService "urn:X-1" "%zz"] [],
           .mk (sampleAttrs "second") ([] ++ sampleService "urn:X-1" "/scpd1.xml" :: []) []])
        "urn:X-1").result =
        .ok (netURL.ResolveReference
          (url.URL.mk "http" "" none "10.0.0.5:1400" "/desc.xml" "" false false "" "" "")
          (url.URL.mk "" "" none "" "/scpd1.xml" "" false false "" "" "")) ∧
      Error.parse (url.ParseError.escapeError "%zz") ∈
        (describeGetServiceLocation netURL "http://10.0.0.5:1400/desc.xml"
          (.mk (sampleAttrs "root") [sampleService "urn:X-0" "/scpd0.xml"]
            [.mk (sampleAttrs "first") [sampleService "urn:X-1" "%zz"] [],
             .mk (sampleAttrs "second") ([] ++ sampleService "urn:X-1" "/scpd1.xml" :: []) []])
          "urn:X-1").log :=
  failed_sibling_tolerance netURL "http://10.0.0.5:1400/desc.xml" (sampleAttrs "root")
    [sampleService "urn:X-0" "/scpd0.xml"]
    (.mk (sampleAttrs "first") [sampleService "urn:X-1" "%zz"] []) (sampleAttrs "second")
    [] [] (sampleService "urn:X-1" "/scpd1.xml") [] "urn:X-1" (url.ParseError.escapeError "%zz")
    (url.URL.mk "http" "" none "10.0.0.5:1400" "/desc.xml" "" false false "" "" "")
    (url.URL.mk "" "" none "" "/scpd1.xml" "" false false "" "" "")
    (by decide) rfl (by decide) rfl rfl rfl

/-- C5, as stated, fails: with a document URL that parses and a service with
the target id whose SCPD URL parses, the search still returns the parse error
of a malformed candidate that comes earlier in the same service list, or that
sits in the root's own list while the good one is in an embedded device. -/
theorem malformed_candidate_counterexample :
    (∃ u, url.Parse "http://10.0.0.5:1400/desc.xml" = .ok u) ∧
    (∃ v, url.Parse (sampleService "urn:X-1" "/scpd1.xml").SCPDURL = .ok v) ∧
    (describeGetServiceLocation netURL "http://10.0.0.5:1400/desc.xml"
        (.mk (sampleAttrs "root")
          [sampleService "urn:X-1" "%zz", sampleService "urn:X-1" "/scpd1.xml"] [])
        "urn:X-1").result = .error (.parse (.escapeError "%zz")) ∧
    (describeGetServiceLocation netURL "http://10.0.0.5:1400/desc.xml"
        (.mk (sampleAttrs "root") [sampleService "urn:X-1" "%zz"]
          [.mk (sampleAttrs "embedded") [sampleService "urn:X-1" "/scpd1.xml"] []])
        "urn:X-1").result = .error (.parse (.escapeError "%zz")) :=
  ⟨⟨_, rfl⟩, ⟨_, rfl⟩, rfl, rfl⟩

/-- C5, amended: when the document URL parses and a device reached by a path
from the root has, as the first service with the target id of its own list, a
service whose SCPD URL parses, and no device passed on the way down has a
service with the target id of its own, then `describeGetServiceLocation`
returns a URL, whatever the other services with the target id are: the search
continues past an embedded device whose search fails. -/
theorem search_continues_past_failed_sibling {U E : Type} (lib : NetURL U E)
    (deviceUrl : String) (serviceId : String) (path : List Nat) (root : DeviceType)
    (attrs : DeviceAttrs) (pre post : List Service) (s : Service) (devices : List DeviceType)
    (u v : U)
    (hx : root.descend path = some (.mk attrs (pre ++ s :: post) devices))
    (habove : ∀ y ∈ root.ancestors path, ∀ t ∈ y.Services, t.ServiceId ≠ serviceId)
    (hpre : ∀ t ∈ pre, t.ServiceId ≠ serviceId) (hs : s.ServiceId = serviceId)
    (hu : lib.Parse deviceUrl = .ok u) (hv : lib.Parse s.SCPDURL = .ok v) :
    ∃ r, (describeGetServiceLocation lib deviceUrl root serviceId).result = .ok r := by
  induction path generalizing root with
  | nil =>
    rw [DeviceType.descend] at hx
    simp only [Option.some.injEq] at hx
    subst hx
    exact ⟨_, first_match_decides_aux lib deviceUrl attrs pre post s devices serviceId
      hpre hs u v hu hv⟩
  | cons i path ih =>
    cases hc : root.Devices[i]? with
    | none =>
      rw [DeviceType.descend, hc] at hx
      simp at hx
    | some c =>
      rw [descend_cons root i path c hc] at hx
      have hanc : root.ancestors (i :: path) = root :: c.ancestors path := by
        rw [DeviceType.ancestors, hc]
      rw [hanc] at habove
      obtain ⟨r, hr⟩ := ih c hx fun y hy => habove y (List.mem_cons_of_mem _ hy)
      have hown := habove root (List.mem_cons_self _ _)
      have hmem : c ∈ root.Devices := List.getElem?_mem hc
      cases root with
      | mk a sv ds =>
        rw [describeGetServiceLocation_of_no_own lib deviceUrl serviceId a sv ds hown]
        exact deviceLoop_ok_of_mem lib deviceUrl serviceId ds c r hmem hr

/-- A witness of C5 amended: the first embedded device has a malformed
candidate, and the device found has a malformed candidate after the good one
and another below it. -/
theorem search_continues_past_failed_sibling_witness :
    ∃ r, (describeGetServiceLocation netURL "http://10.0.0.5:1400/desc.xml"
      (.mk (sampleAttrs "root") [sampleService "urn:X-0" "/scpd0.xml"]
        [sampleTree "urn:X-1" "%zz",
         .mk (sampleAttrs "second")
          ([sampleService "urn:X-0" "%zz"] ++ sampleService "urn:X-1" "/scpd1.xml" ::
            [sampleService "urn:X-1" "%zz"])
          [sampleTree "urn:X-1" "%zz"]])
      "urn:X-1").result = .ok r :=
  search_continues_past_failed_sibling netURL "http://10.0.0.5:1400/desc.xml" "urn:X-1" [1]
    (.mk (sampleAttrs "root") [sampleService "urn:X-0" "/scpd0.xml"]
        [sampleTree "urn:X-1" "%zz",
         .mk (sampleAttrs "second")
          ([sampleService "urn:X-0" "%zz"] ++ sampleService "urn:X-1" "/scpd1.xml" ::
            [sampleService "urn:X-1" "%zz"])
          [sampleTree "urn:X-1" "%zz"]])
    (sampleAttrs "second") [sampleService "urn:X-0" "%zz"] [sampleService "urn:X-1" "%zz"]
    (sampleService "urn:X-1" "/scpd1.xml") [sampleTree "urn:X-1" "%zz"]
    (url.URL.mk "http" "" none "10.0.0.5:1400" "/desc.xml" "" false false "" "" "")
    (url.URL.mk "" "" none "" "/scpd1.xml" "" false false "" "" "")
    rfl (by decide) (by decide) rfl rfl rfl

/-- C6, as stated, fails: the search returns `describeErrServiceNotFound` for
a tree with a service of the target id, when that service is in an embedded
device and its SCPD URL does not parse. -/
theorem not_found_with_match_counterexample :
    (describeGetServiceLocation netURL "http://10.0.0.5:1400/desc.xml"
        (sampleTree "urn:X-1" "%zz") "urn:X-1").result = .error .describeErrServiceNotFound ∧
    ∃ x ∈ (sampleTree "urn:X-1" "%zz").preorder, ∃ s ∈ x.Services, s.ServiceId = "urn:X-1" :=
  ⟨rfl, by decide⟩

/-- C6, amended: `describeGetServiceLocation` returns
`describeErrServiceNotFound` only if the root's own service list has no
service with the target id and the search of every embedded device failed;
so, when the document URL parses and so does the SCPD URL of every service
with the target id, only if no service of the tree has the target id. -/
theorem not_found_only_if {U E : Type} (lib : NetURL U E) (deviceUrl : String)
    (root : DeviceType) (serviceId : String)
    (h : (describeGetServiceLocation lib deviceUrl root serviceId).result =
      .error .describeErrServiceNotFound) :
    (∀ s ∈ root.Services, s.ServiceId ≠ serviceId) ∧
    (∀ d ∈ root.Devices, ∃ e,
      (describeGetServiceLocation lib deviceUrl d serviceId).result = .error e) ∧
    ((∃ u, lib.Parse deviceUrl = .ok u) →
      (∀ x ∈ root.preorder, ∀ s ∈ x.Services, s.ServiceId = serviceId →
        ∃ v, lib.Parse s.SCPDURL = .ok v) →
      ∀ x ∈ root.preorder, ∀ s ∈ x.Services, s.ServiceId ≠ serviceId) := by
  have hnone : ∀ a sv ds e,
      (describeGetServiceLocation lib deviceUrl (.mk a sv ds) serviceId).result = .error e →
      ((∃ u, lib.Parse deviceUrl = .ok u) →
        (∀ s ∈ sv, s.ServiceId = serviceId → ∃ v, lib.Parse s.SCPDURL = .ok v) →
        ∀ s ∈ sv, s.ServiceId ≠ serviceId) ∧
      (e = .describeErrServiceNotFound → ∀ s ∈ sv, s.ServiceId ≠ serviceId) := by
    intro a sv ds e he
    rw [describeGetServiceLocation_mk] at he
    cases hloop : serviceLoop lib deviceUrl serviceId sv with
    | none =>
      have := (serviceLoop_eq_none lib deviceUrl serviceId sv).1 hloop
      exact ⟨fun _ _ => this, fun _ => this⟩
    | some res =>
      rw [hloop] at he
      simp only at he
      obtain ⟨s, hsmem, hid, hres⟩ := serviceLoop_eq_some lib deviceUrl serviceId sv res hloop
      rw [he] at hres
      constructor
      · rintro ⟨u, hu⟩ hall
        obtain ⟨v, hv⟩ := hall s hsmem hid
        have hok := (resolveService_eq_ok lib deviceUrl s (lib.ResolveReference u v)).2
          ⟨u, v, hu, hv, rfl⟩
        rw [hok] at hres
        simp at hres
      · intro hnf
        subst hnf
        exact absurd hres.symm (resolveService_ne_notFound lib deviceUrl s)
  have hsub : ∀ a sv ds e,
      (describeGetServiceLocation lib deviceUrl (.mk a sv ds) serviceId).result = .error e →
      (∀ s ∈ sv, s.ServiceId ≠ serviceId) →
      ∀ d ∈ ds, ∃ e', (describeGetServiceLocation lib deviceUrl d serviceId).result =
        .error e' := by
    intro a sv ds e he hown
    rw [describeGetServiceLocation_of_no_own lib deviceUrl serviceId a sv ds hown] at he
    exact (deviceLoop_eq_error lib deviceUrl serviceId ds e he).2
  have hall : ∀ d : DeviceType, ∀ e,
      (describeGetServiceLocation lib deviceUrl d serviceId).result = .error e →
      (∃ u, lib.Parse deviceUrl = .ok u) →
      (∀ x ∈ d.preorder, ∀ s ∈ x.Services, s.ServiceId = serviceId →
        ∃ v, lib.Parse s.SCPDURL = .ok v) →
      ∀ x ∈ d.preorder, ∀ s ∈ x.Services, s.ServiceId ≠ serviceId := by
    intro d
    induction d using DeviceType.induction_on with
    | mk a sv ds ih =>
      intro e he hu hparse x hx
      have hown : ∀ s ∈ sv, s.ServiceId ≠ serviceId :=
        (hnone a sv ds e he).1 hu (hparse (.mk a sv ds) (mem_preorder_self _))
      rw [preorder_mk] at hx
      rcases List.mem_cons.1 hx with rfl | hx
      · exact hown
      · obtain ⟨d, hd, hxd⟩ := mem_preorderList ds x hx
        obtain ⟨e', he'⟩ := hsub a sv ds e he hown d hd
        refine ih d hd e' he' hu ?_ x hxd
        intro y hy
        apply hparse y
        rw [preorder_mk]
        exact List.mem_cons_of_mem _ (preorder_subset_preorderList ds d hd y hy)
  cases root with
  | mk a sv ds =>
    have hown := (hnone a sv ds _ h).2 rfl
    exact ⟨hown, hsub a sv ds _ h hown, hall _ _ h⟩

/-- A witness of C6 amended: a tree whose only candidate is malformed. -/
theorem not_found_only_if_witness :
    (∀ s ∈ (sampleTree "urn:X-1" "%zz").Services, s.ServiceId ≠ "urn:X-1") ∧
    (∀ d ∈ (sampleTree "urn:X-1" "%zz").Devices, ∃ e,
      (describeGetServiceLocation netURL "http://10.0.0.5:1400/desc.xml" d "urn:X-1").result =
        .error e) ∧
    ((∃ u, netURL.Parse "http://10.0.0.5:1400/desc.xml" = .ok u) →
      (∀ x ∈ (sampleTree "urn:X-1" "%zz").preorder, ∀ s ∈ x.Services, s.ServiceId = "urn:X-1" →
        ∃ v, netURL.Parse s.SCPDURL = .ok v) →
      ∀ x ∈ (sampleTree "urn:X-1" "%zz").preorder, ∀ s ∈ x.Services,
        s.ServiceId ≠ "urn:X-1") :=
  not_found_only_if netURL "http://10.0.0.5:1400/desc.xml" (sampleTree "urn:X-1" "%zz")
    "urn:X-1" rfl

/-- C7, as stated, fails: an absolute SCPD URL is not returned unchanged. Its
path loses its dot segments and its scheme is in lower case. -/
theorem absolute_scpdurl_changed_counterexample :
    (∃ v, url.Parse "http://other/a/../x.xml" = .ok v ∧ v.Scheme ≠ "") ∧
    (describeGetServiceLocation netURL "http://10.0.0.5:1400/desc.xml"
        (sampleTree "urn:X-1" "http://other/a/../x.xml") "urn:X-1").result.map url.URL.String =
      .ok "http://other/x.xml" ∧
    (∃ v, url.Parse "HTTP://other/x.xml" = .ok v ∧ v.Scheme ≠ "") ∧
    (describeGetServiceLocation netURL "http://10.0.0.5:1400/desc.xml"
        (sampleTree "urn:X-1" "HTTP://other/x.xml") "urn:X-1").result.map url.URL.String =
      .ok "http://other/x.xml" :=
  ⟨⟨_, rfl, by decide⟩, rfl, ⟨_, rfl, by decide⟩, rfl⟩

/-- C7, amended: for every document URL that parses, at any depth of the
tree: a URL that `describeGetServiceLocation` returns comes from a service
with the target id whose SCPD URL parses, and when that SCPD URL has a scheme
the result is its parsed form with the path set anew and every other field
kept, nothing of it taken from the document URL; when all the services with
the target id carry one SCPD URL, which parses and has a scheme, the search
returns that form of it; the new path is the escaped path without its
segments `.` and `..`, and is the escaped path itself when this is rooted and
has no such segment; and for the SCPD URL `http://other/x.xml` of the single
service of an embedded device the string form of the result is
`http://other/x.xml`. -/
theorem absolute_scpdurl_wins (deviceUrl : String) (root : DeviceType) (serviceId : String)
    (u : url.URL) (hu : url.Parse deviceUrl = .ok u) :
    (∀ r, (describeGetServiceLocation netURL deviceUrl root serviceId).result = .ok r →
      ∃ path x, root.descend path = some x ∧ ∃ s ∈ x.Services, s.ServiceId = serviceId ∧
        ∃ v, url.Parse s.SCPDURL = .ok v ∧
          (v.Scheme ≠ "" →
            r = v.setPathIgnore (url.resolvePath v.EscapedPath []) ∧
            { r with Path := v.Path, RawPath := v.RawPath } = v)) ∧
    (∀ (path : List Nat) (x : DeviceType) (s : Service) (v : url.URL),
      root.descend path = some x → s ∈ x.Services → s.ServiceId = serviceId →
      (∀ y ∈ root.preorder, ∀ t ∈ y.Services, t.ServiceId = serviceId →
        t.SCPDURL = s.SCPDURL) →
      url.Parse s.SCPDURL = .ok v → v.Scheme ≠ "" →
      (describeGetServiceLocation netURL deviceUrl root serviceId).result =
        .ok (v.setPathIgnore (url.resolvePath v.EscapedPath []))) ∧
    (∀ v : url.URL,
      (∀ e ∈ url.split '/' (url.resolvePath v.EscapedPath []), e ≠ ['.'] ∧ e ≠ ['.', '.']) ∧
      ((v.EscapedPath = [] ∨ v.EscapedPath.head? = some '/') →
        (∀ e ∈ url.split '/' v.EscapedPath, e ≠ ['.'] ∧ e ≠ ['.', '.']) →
        url.resolvePath v.EscapedPath [] = v.EscapedPath)) ∧
    (∀ (attrs embedded : DeviceAttrs) (serviceType controlURL eventSubURL : String)
      (below : List DeviceType),
      (describeGetServiceLocation netURL deviceUrl
        (.mk attrs []
          [.mk embedded [⟨serviceType, "urn:X-1", "http://other/x.xml", controlURL,
            eventSubURL⟩] below])
        "urn:X-1").result.map url.URL.String = .ok "http://other/x.xml") := by
  refine ⟨?_, ?_, ?_, ?_⟩
  · intro r h
    obtain ⟨x, hxmem, s, hsmem, hid, hres⟩ := search_ok_selected netURL deviceUrl root serviceId r h
    obtain ⟨path, hpath⟩ := descend_of_mem_preorder root x hxmem
    obtain ⟨u', v, _, hv, hr⟩ := (resolveService_eq_ok netURL deviceUrl s r).1 hres
    refine ⟨path, x, hpath, s, hsmem, hid, v, hv, ?_⟩
    intro habs
    have hr' : r = v.setPathIgnore (url.resolvePath v.EscapedPath []) := by
      rw [hr]
      exact resolveReference_of_scheme u' v habs
    refine ⟨hr', ?_⟩
    rw [hr']
    exact setPathIgnore_fields v _
  · intro path x s v hpath hsmem hid hall hv habs
    have hxmem : x ∈ root.preorder := mem_preorder_of_descend path root x hpath
    have hres : ∀ y ∈ root.preorder, ∀ t ∈ y.Services, t.ServiceId = serviceId →
        resolveService netURL deviceUrl t = .ok (u.ResolveReference v) := by
      intro y hy t ht htid
      refine (resolveService_eq_ok netURL deviceUrl t _).2 ⟨u, v, hu, ?_, rfl⟩
      rw [hall y hy t ht htid]
      exact hv
    cases hsearch : (describeGetServiceLocation netURL deviceUrl root serviceId).result with
    | error e =>
      exact absurd hid (search_error_no_match netURL deviceUrl serviceId root
        (fun y hy t ht htid => ⟨_, hres y hy t ht htid⟩) e hsearch x hxmem s hsmem)
    | ok r =>
      obtain ⟨y, hy, t, ht, htid, hr⟩ :=
        search_ok_selected netURL deviceUrl root serviceId r hsearch
      rw [hres y hy t ht htid] at hr
      simp only [Except.ok.injEq] at hr
      rw [← hr, resolveReference_of_scheme u v habs]
  · intro v
    exact ⟨url.resolvePath_no_dot_segment _ _, url.resolvePath_of_clean _⟩
  · intro attrs embedded serviceType controlURL eventSubURL below
    rw [describeGetServiceLocation_of_no_own netURL deviceUrl "urn:X-1" attrs [] _
      (fun _ hm => absurd hm (List.not_mem_nil _))]
    have hfirst := first_match_decides_aux netURL deviceUrl embedded [] []
      ⟨serviceType, "urn:X-1", "http://other/x.xml", controlURL, eventSubURL⟩ below "urn:X-1"
      (fun _ hm => absurd hm (List.not_mem_nil _)) rfl u
      (url.URL.mk "http" "" none "other" "/x.xml" "" false false "" "" "") hu rfl
    rw [List.nil_append] at hfirst
    rw [deviceLoop_cons_ok netURL deviceUrl "urn:X-1" _ [] _ hfirst]
    rfl

/-- A witness of C7 amended: the SCPD URL `http://other/a/../x.xml`, with a
scheme and a dot segment, on the service of an embedded device. -/
theorem absolute_scpdurl_wins_witness :
    url.Parse "http://10.0.0.5:1400/desc.xml" =
      .ok (url.URL.mk "http" "" none "10.0.0.5:1400" "/desc.xml" "" false false "" "" "") ∧
    (describeGetServiceLocation netURL "http://10.0.0.5:1400/desc.xml"
        (sampleTree "urn:X-1" "http://other/a/../x.xml") "urn:X-1").result =
      .ok (url.URL.mk "http" "" none "other" "/x.xml" "" false false "" "" "") :=
  ⟨rfl, (absolute_scpdurl_wins "http://10.0.0.5:1400/desc.xml"
    (sampleTree "urn:X-1" "http://other/a/../x.xml") "urn:X-1"
    (url.URL.mk "http" "" none "10.0.0.5:1400" "/desc.xml" "" false false "" "" "") rfl).2.1
    [0] (.mk (sampleAttrs "embedded") [sampleService "urn:X-1" "http://other/a/../x.xml"] [])
    (sampleService "urn:X-1" "http://other/a/../x.xml")
    (url.URL.mk "http" "" none "other" "/a/../x.xml" "" false false "" "" "")
    rfl (by decide) rfl (by decide) rfl (by decide)⟩

/-- C8 (relative-reference scenario): for the document URL
`http://10.0.0.5:1400/desc.xml` and a root device without services whose one
embedded device has the single service of id `urn:X-1` and SCPD URL
`/scpd1.xml`, the search for `urn:X-1` succeeds, logs nothing, and the string
form of the URL it returns is `http://10.0.0.5:1400/scpd1.xml`: the scheme and
host of the base with the path of the reference. -/
theorem relative_reference_scenario (root embedded : DeviceAttrs)
    (serviceType controlURL eventSubURL : String) (below : List DeviceType) :
    describeGetServiceLocation netURL "http://10.0.0.5:1400/desc.xml"
        (.mk root []
          [.mk embedded [⟨serviceType, "urn:X-1", "/scpd1.xml", controlURL, eventSubURL⟩]
            below])
        "urn:X-1" =
      ⟨.ok (url.URL.mk "http" "" none "10.0.0.5:1400" "/scpd1.xml" "" false false "" "" ""),
        []⟩ ∧
    url.URL.String (url.URL.mk "http" "" none "10.0.0.5:1400" "/scpd1.xml" "" false false
      "" "" "") = "http://10.0.0.5:1400/scpd1.xml" := by
  refine ⟨?_, rfl⟩
  rw [describeGetServiceLocation_of_no_own netURL _ "urn:X-1" root [] _
    (fun _ hm => absurd hm (List.not_mem_nil _))]
  have hfirst := describeGetServiceLocation_of_first netURL "http://10.0.0.5:1400/desc.xml"
    "urn:X-1" embedded [] []
    ⟨serviceType, "urn:X-1", "/scpd1.xml", controlURL, eventSubURL⟩ below
    (fun _ hm => absurd hm (List.not_mem_nil _)) rfl
  rw [List.nil_append] at hfirst
  rw [deviceLoop, hfirst]
  rfl

/-! ## Lemmas on the renderer -/

theorem describeDevicePrinter_mk (device : DeviceAttrs) (services : List Service)
    (devices : List DeviceType) (padding : String) :
    describeDevicePrinter (.mk device services devices) padding =
      [ .field false padding "DeviceType" device.DeviceType,
        .field false padding "FriendlyName" device.FriendlyName,
        .field false padding "Manufacturer" device.Manufacturer,
        .field false padding "ManufacturerURL" device.ManufacturerURL,
        .field false padding "ModelName" device.ModelName,
        .field false padding "ModelDescription" device.ModelDescription,
        .field false padding "ModelURL" device.ModelURL,
        .field false padding "SerialNumber" device.SerialNumber,
        .field false padding "PresentationURL" device.PresentationURL,
        .field false padding "UPC" device.UPC,
        .field false padding "UDN" device.UDN,
        .blank ] ++
      (if services.length > 0 then
        .header padding "Services" :: servicePrinterLoop padding services
      else []) ++
      (if devices.length > 0 then
        .header padding "Devices:" :: devicePrinterLoop devices padding
      else []) := by
  rw [describeDevicePrinter]

theorem devicePrinterLoop_nil (padding : String) : devicePrinterLoop [] padding = [] := by
  rw [devicePrinterLoop]

theorem devicePrinterLoop_cons (dev2 : DeviceType) (rest : List DeviceType) (padding : String) :
    devicePrinterLoop (dev2 :: rest) padding =
      describeDevicePrinter dev2 (padding ++ "    ") ++ [.blank] ++
        devicePrinterLoop rest padding := by
  rw [devicePrinterLoop]

theorem servicePrinterLoop_eq (padding : String) (services : List Service) :
    servicePrinterLoop padding services =
      services.flatMap fun s =>
        (s.labelled.map fun lv => Line.field true padding lv.1 lv.2) ++ [Line.blank] := by
  induction services with
  | nil => rfl
  | cons s rest ih =>
    rw [servicePrinterLoop, ih, List.flatMap_cons]
    rfl

/-- The writes for a device are its own lines and then those of the loop over
its embedded devices. -/
theorem describeDevicePrinter_eq_specOwnLines (d : DeviceType) (padding : String) :
    describeDevicePrinter d padding = specOwnLines padding d ++ devicePrinterLoop d.Devices padding := by
  cases d with
  | mk device services devices =>
    rw [describeDevicePrinter_mk, servicePrinterLoop_eq]
    cases services with
    | nil =>
      cases devices with
      | nil => simp [specOwnLines, DeviceType.Services, DeviceType.Devices, DeviceType.attrs,
          DeviceAttrs.labelled, devicePrinterLoop_nil]
      | cons d ds => simp [specOwnLines, DeviceType.Services, DeviceType.Devices, DeviceType.attrs,
          DeviceAttrs.labelled]
    | cons s ss =>
      cases devices with
      | nil => simp [specOwnLines, DeviceType.Services, DeviceType.Devices, DeviceType.attrs,
          DeviceAttrs.labelled, devicePrinterLoop_nil]
      | cons d ds => simp [specOwnLines, DeviceType.Services, DeviceType.Devices, DeviceType.attrs,
          DeviceAttrs.labelled]

/-- What a filter keeps of the own lines of a device, when it drops the blank
lines and the headers. -/
theorem filterMap_specOwnLines {β : Type} (f : Line → Option β) (hblank : f .blank = none)
    (hheader : ∀ p t, f (.header p t) = none) (padding : String) (d : DeviceType) :
    (specOwnLines padding d).filterMap f =
      (d.attrs.labelled.filterMap fun lv => f (.field false padding lv.1 lv.2)) ++
        d.Services.flatMap fun s =>
          s.labelled.filterMap fun lv => f (.field true padding lv.1 lv.2) := by
  have hs : ∀ ss : List Service,
      (ss.flatMap fun s =>
        (s.labelled.map fun lv => Line.field true padding lv.1 lv.2) ++ [Line.blank]).filterMap
          f = ss.flatMap fun s =>
            s.labelled.filterMap fun lv => f (.field true padding lv.1 lv.2) := by
    intro ss
    induction ss with
    | nil => rfl
    | cons s rest ih =>
      rw [List.flatMap_cons, List.filterMap_append, ih, List.flatMap_cons,
        List.filterMap_append, List.filterMap_map]
      simp only [List.filterMap_cons, hblank, List.filterMap_nil, List.append_nil]
      rfl
  have hsec : (if d.Services.isEmpty then []
      else Line.header padding "Services" ::
        d.Services.flatMap fun s =>
          (s.labelled.map fun lv => Line.field true padding lv.1 lv.2) ++
            [Line.blank]).filterMap f =
      d.Services.flatMap fun s =>
        s.labelled.filterMap fun lv => f (.field true padding lv.1 lv.2) := by
    cases d.Services with
    | nil => rfl
    | cons s ss =>
      simp only [List.isEmpty_cons, Bool.false_eq_true, if_false, List.filterMap_cons, hheader]
      exact hs (s :: ss)
  have hdev : (if d.Devices.isEmpty then []
      else [Line.header padding "Devices:"]).filterMap f = [] := by
    cases d.Devices with
    | nil => rfl
    | cons x xs =>
      simp only [List.isEmpty_cons, Bool.false_eq_true, if_false, List.filterMap_cons, hheader,
        List.filterMap_nil]
  unfold specOwnLines
  rw [List.filterMap_append, List.filterMap_append, List.filterMap_append, hsec, hdev,
    List.filterMap_map]
  simp only [List.filterMap_cons, hblank, List.filterMap_nil, List.append_nil]
  rfl

theorem filterMap_pair_specOwnLines (padding : String) (d : DeviceType) :
    (specOwnLines padding d).filterMap Line.pair =
      d.attrs.labelled ++ d.Services.flatMap Service.labelled := by
  rw [filterMap_specOwnLines Line.pair rfl (fun _ _ => rfl)]
  have h : ∀ (tab : Bool) (l : List (String × String)),
      (l.filterMap fun lv => Line.pair (.field tab padding lv.1 lv.2)) = l := by
    intro tab l
    induction l with
    | nil => rfl
    | cons x xs ih => rw [List.filterMap_cons, ih]; rfl
  rw [h false]
  congr 1

theorem filterMap_valueOf_deviceType_specOwnLines (padding : String) (d : DeviceType) :
    (specOwnLines padding d).filterMap (Line.valueOf "DeviceType") = [d.attrs.DeviceType] := by
  rw [filterMap_specOwnLines (Line.valueOf "DeviceType") rfl (fun _ _ => rfl)]
  have h : (d.Services.flatMap fun s =>
      s.labelled.filterMap fun lv => Line.valueOf "DeviceType" (.field true padding lv.1 lv.2)) =
      [] := by
    induction d.Services with
    | nil => rfl
    | cons s ss ih => rw [List.flatMap_cons, ih]; rfl
  rw [h]
  rfl

theorem filterMap_valueOf_serviceId_specOwnLines (padding : String) (d : DeviceType) :
    (specOwnLines padding d).filterMap (Line.valueOf "ServiceId") =
      d.Services.map (·.ServiceId) := by
  rw [filterMap_specOwnLines (Line.valueOf "ServiceId") rfl (fun _ _ => rfl)]
  have h : (d.Services.flatMap fun s =>
      s.labelled.filterMap fun lv => Line.valueOf "ServiceId" (.field true padding lv.1 lv.2)) =
      d.Services.map (·.ServiceId) := by
    induction d.Services with
    | nil => rfl
    | cons s ss ih => rw [List.flatMap_cons, ih]; rfl
  rw [h]
  rfl

/-- What a filter keeps of the report of a tree, from what it keeps of the own
lines of each device, when it drops the blank lines. -/
theorem filterMap_describeDevicePrinter {β : Type} (f : Line → Option β)
    (g : DeviceType → List β) (hblank : f .blank = none)
    (hown : ∀ padding d, (specOwnLines padding d).filterMap f = g d) (d : DeviceType)
    (padding : String) :
    (describeDevicePrinter d padding).filterMap f = d.preorder.flatMap g := by
  have key := DeviceType.induction
    (P := fun d => ∀ padding,
      (describeDevicePrinter d padding).filterMap f = d.preorder.flatMap g)
    (Q := fun ds => ∀ padding,
      (devicePrinterLoop ds padding).filterMap f = (preorderList ds).flatMap g)
    (by
      intro attrs services devices ih padding
      rw [describeDevicePrinter_eq_specOwnLines, List.filterMap_append, hown, preorder_mk,
        List.flatMap_cons]
      exact congrArg _ (ih padding))
    (by
      intro padding
      rw [devicePrinterLoop_nil, preorderList]
      rfl)
    (by
      intro d ds hd hds padding
      rw [devicePrinterLoop_cons, List.filterMap_append, List.filterMap_append, hd, hds,
        preorderList_cons, List.flatMap_append]
      simp [hblank])
  exact key.1 d padding

/-! ## The claims on the renderer -/

/-- C9 (rendering order): for every device tree and indent, the labelled
lines that `describeDevicePrinter` writes are, device after device in
pre-order, the eleven attributes of the device and then the five attributes
of each of its services in list order, nothing reordered, dropped or
repeated; so the values of the `DeviceType` lines are the pre-order of the
tree, and the values of the `ServiceId` lines are the services of each
device of the pre-order in list order. -/
theorem rendering_order (d : DeviceType) (padding : String) :
    (describeDevicePrinter d padding).filterMap Line.pair =
      (d.preorder.flatMap fun x => x.attrs.labelled ++ x.Services.flatMap Service.labelled) ∧
    (describeDevicePrinter d padding).filterMap (Line.valueOf "DeviceType") =
      d.preorder.map (·.attrs.DeviceType) ∧
    (describeDevicePrinter d padding).filterMap (Line.valueOf "ServiceId") =
      (d.preorder.flatMap fun x => x.Services.map (·.ServiceId)) := by
  refine ⟨?_, ?_, ?_⟩
  · exact filterMap_describeDevicePrinter Line.pair _ rfl filterMap_pair_specOwnLines d padding
  · rw [filterMap_describeDevicePrinter (Line.valueOf "DeviceType") _ rfl
      filterMap_valueOf_deviceType_specOwnLines d padding]
    induction d.preorder with
    | nil => rfl
    | cons x xs ih => rw [List.flatMap_cons, ih]; rfl
  · exact filterMap_describeDevicePrinter (Line.valueOf "ServiceId") _ rfl
      filterMap_valueOf_serviceId_specOwnLines d padding

theorem append_spaces (p : String) (n : Nat) :
    (p ++ "    ") ++ spaces (4 * n) = p ++ spaces (4 * (n + 1)) := by
  rw [String.append_assoc]
  congr 1

theorem append_spaces_zero (p : String) : p ++ spaces (4 * 0) = p := by
  apply String.ext
  rw [String.data_append]
  simp [spaces]

theorem devicePrinterLoop_getElem (ds : List DeviceType) (i : Nat) (c : DeviceType)
    (padding : String) (h : ds[i]? = some c) :
    ∃ before after, devicePrinterLoop ds padding =
      before ++ describeDevicePrinter c (padding ++ "    ") ++ after := by
  induction ds generalizing i with
  | nil => simp at h
  | cons x xs ih =>
    rw [devicePrinterLoop_cons]
    cases i with
    | zero =>
      simp only [List.getElem?_cons_zero, Option.some.injEq] at h
      subst h
      exact ⟨[], [.blank] ++ devicePrinterLoop xs padding, by simp⟩
    | succ j =>
      rw [List.getElem?_cons_succ] at h
      obtain ⟨b, a, hba⟩ := ih j h
      exact ⟨describeDevicePrinter x (padding ++ "    ") ++ [.blank] ++ b, a, by
        rw [hba]; simp⟩

theorem header_mem_specOwnLines (indent title : String) (d : DeviceType) :
    Line.header indent title ∈ specOwnLines indent d ↔
      (title = "Services" ∧ d.Services ≠ []) ∨ (title = "Devices:" ∧ d.Devices ≠ []) := by
  unfold specOwnLines
  cases d.Services <;> cases d.Devices <;>
    simp [DeviceAttrs.labelled, Service.labelled]

/-- The bytes of the own lines of a device: a blank line, or the indent, a
label, a tab and a value, after a tab for a service, or the indent and a
header. -/
theorem text_of_specOwnLines (indent : String) (d : DeviceType) :
    ∀ l ∈ specOwnLines indent d,
      l.text = "\n" ∨
      (∃ label value, l.text = indent ++ label ++ "\t" ++ value ++ "\n") ∨
      (∃ label value, l.text = "\t" ++ indent ++ label ++ "\t" ++ value ++ "\n") ∨
      (∃ title, l.text = indent ++ title ++ "\n") := by
  intro l hl
  unfold specOwnLines at hl
  simp only [List.mem_append, List.mem_map, List.mem_singleton] at hl
  rcases hl with ((⟨lv, _, rfl⟩ | rfl) | hl) | hl
  · exact Or.inr (Or.inl ⟨lv.1, lv.2, by simp [Line.text]⟩)
  · exact Or.inl rfl
  · split at hl
    · cases hl
    · rcases List.mem_cons.1 hl with rfl | hl
      · exact Or.inr (Or.inr (Or.inr ⟨"Services", rfl⟩))
      · obtain ⟨s, _, hs⟩ := List.mem_flatMap.1 hl
        simp only [List.mem_append, List.mem_map, List.mem_singleton] at hs
        rcases hs with ⟨lv, _, rfl⟩ | rfl
        · exact Or.inr (Or.inr (Or.inl ⟨lv.1, lv.2, by simp [Line.text]⟩))
        · exact Or.inl rfl
  · split at hl
    · cases hl
    · rw [List.mem_singleton] at hl
      subst hl
      exact Or.inr (Or.inr (Or.inr ⟨"Devices:", rfl⟩))

/-- C10 (indentation is additive with depth): for every device tree and
initial indent, a device reached from the root by a path of `k` embedded
devices is rendered with the indent followed by `4 * k` spaces: the writes for
the root contain, in one piece, the writes for that device with that indent,
which are its own lines, the eleven attribute lines and the section headers
with that indent and the service lines with a tab and that indent, followed by
the writes for its embedded devices; and each of the two section headers is
among its own lines if and only if the list of the section is not empty. -/
theorem indentation_additive (root : DeviceType) (padding : String) (path : List Nat)
    (d : DeviceType) (h : root.descend path = some d) :
    (∃ before after, describeDevicePrinter root padding =
      before ++ describeDevicePrinter d (padding ++ spaces (4 * path.length)) ++ after) ∧
    describeDevicePrinter d (padding ++ spaces (4 * path.length)) =
      specOwnLines (padding ++ spaces (4 * path.length)) d ++
        devicePrinterLoop d.Devices (padding ++ spaces (4 * path.length)) ∧
    (Line.header (padding ++ spaces (4 * path.length)) "Services" ∈
      specOwnLines (padding ++ spaces (4 * path.length)) d ↔ d.Services ≠ []) ∧
    (Line.header (padding ++ spaces (4 * path.length)) "Devices:" ∈
      specOwnLines (padding ++ spaces (4 * path.length)) d ↔ d.Devices ≠ []) := by
  refine ⟨?_, describeDevicePrinter_eq_specOwnLines _ _, ?_, ?_⟩
  · induction path generalizing root padding with
    | nil =>
      rw [DeviceType.descend] at h
      simp only [Option.some.injEq] at h
      subst h
      exact ⟨[], [], by rw [List.length_nil, append_spaces_zero]; simp⟩
    | cons i path ih =>
      cases hc : root.Devices[i]? with
      | none =>
        rw [DeviceType.descend, hc] at h
        simp at h
      | some c =>
        rw [descend_cons root i path c hc] at h
        obtain ⟨b, a, hba⟩ := ih c (padding ++ "    ") h
        obtain ⟨b', a', hba'⟩ := devicePrinterLoop_getElem root.Devices i c padding hc
        rw [append_spaces] at hba
        refine ⟨specOwnLines padding root ++ b' ++ b, a ++ a', ?_⟩
        rw [describeDevicePrinter_eq_specOwnLines root padding, hba', hba, List.length_cons]
        simp only [List.append_assoc]
  · rw [header_mem_specOwnLines]
    simp
  · rw [header_mem_specOwnLines]
    simp

/-- A witness of C10: the embedded device of the sample tree, one level below
the root, with the initial indent of two spaces. -/
theorem indentation_additive_witness :
    (∃ before after, describeDevicePrinter (sampleTree "urn:X-1" "/scpd1.xml") "  " =
      before ++ describeDevicePrinter
        (.mk (sampleAttrs "embedded") [sampleService "urn:X-1" "/scpd1.xml"] [])
        ("  " ++ spaces (4 * [0].length)) ++ after) ∧
    describeDevicePrinter
        (.mk (sampleAttrs "embedded") [sampleService "urn:X-1" "/scpd1.xml"] [])
        ("  " ++ spaces (4 * [0].length)) =
      specOwnLines ("  " ++ spaces (4 * [0].length))
        (.mk (sampleAttrs "embedded") [sampleService "urn:X-1" "/scpd1.xml"] []) ++
        devicePrinterLoop
          (DeviceType.mk (sampleAttrs "embedded") [sampleService "urn:X-1" "/scpd1.xml"]
            []).Devices
          ("  " ++ spaces (4 * [0].length)) ∧
    (Line.header ("  " ++ spaces (4 * [0].length)) "Services" ∈
      specOwnLines ("  " ++ spaces (4 * [0].length))
        (.mk (sampleAttrs "embedded") [sampleService "urn:X-1" "/scpd1.xml"] []) ↔
      (DeviceType.mk (sampleAttrs "embedded") [sampleService "urn:X-1" "/scpd1.xml"]
        []).Services ≠ []) ∧
    (Line.header ("  " ++ spaces (4 * [0].length)) "Devices:" ∈
      specOwnLines ("  " ++ spaces (4 * [0].length))
        (.mk (sampleAttrs "embedded") [sampleService "urn:X-1" "/scpd1.xml"] []) ↔
      (DeviceType.mk (sampleAttrs "embedded") [sampleService "urn:X-1" "/scpd1.xml"]
        []).Devices ≠ []) :=
  indentation_additive (sampleTree "urn:X-1" "/scpd1.xml") "  " [0]
    (.mk (sampleAttrs "embedded") [sampleService "urn:X-1" "/scpd1.xml"] []) rfl

end Upnpdig
